import Mathlib

/-!
Verification development for the Lexsy AI assistant's multi-tenant RAG core.

The definitions below are a shallow embedding of the Python source:
  * `services/vector_service.py` (chunking, embedding fallback, per-client
    ChromaDB collections, search, stats, deletion),
  * `services/ai_service.py` (prompt assembly and answer generation),
  * `api/chat.py` (conversation-history window),
  * `services/gmail_service.py` (monitor message saving / dedup).

Python floats are modelled as exact rationals (`ℚ`), Python strings as Lean
`String` / `List Char`, ChromaDB metadata values as a typed sum (`MVal`,
mirroring Chroma's typed metadata columns: an integer-valued filter never
matches a string-valued metadata entry), and the external embedding /
completion providers as explicit parameters that either succeed or raise.
-/

namespace Lexsy

/-! ### Python string primitives -/

/-- Python whitespace (`str.strip`, `str.split`, and `\s` in `re` all use
this set for ASCII text). -/
def pyWS (c : Char) : Bool :=
  c = ' ' || c = '\t' || c = '\n' || c = '\r' || c = '\x0b' || c = '\x0c'

/-- Python `str.strip()` on a character list. -/
def pyStrip (l : List Char) : List Char :=
  (l.dropWhile pyWS).rdropWhile pyWS

/-- Fixpoint of Python `while '  ' in text: text = text.replace('  ', ' ')`:
every run of spaces is squeezed to a single space. -/
def squeeze : List Char → List Char
  | [] => []
  | [c] => [c]
  | c1 :: c2 :: rest =>
    if c1 = ' ' ∧ c2 = ' ' then squeeze (c2 :: rest) else c1 :: squeeze (c2 :: rest)

/-- Python `text.replace('\n', ' ').replace('\t', ' ')`. -/
def replaceNT (l : List Char) : List Char :=
  l.map fun c => if c = '\n' ∨ c = '\t' then ' ' else c

/-- `consNE w ws` adds the pending word `w` to `ws` unless it is empty. -/
def consNE (w : List Char) (ws : List (List Char)) : List (List Char) :=
  if w = [] then ws else w :: ws

/-- One step of the word scanner used by `words` (processed right to left:
the first pair component is the word currently being built). -/
def wordsStep (c : Char) (p : List Char × List (List Char)) :
    List Char × List (List Char) :=
  if pyWS c then ([], consNE p.1 p.2) else (c :: p.1, p.2)

def wordsCore (l : List Char) : List Char × List (List Char) :=
  l.foldr wordsStep ([], [])

/-- Python `str.split()` with no arguments: maximal runs of non-whitespace
characters, in order, with no empty strings. -/
def words (l : List Char) : List (List Char) :=
  consNE (wordsCore l).1 (wordsCore l).2

/-- Python `' '.join(ws)` on character lists. -/
def joinSp : List (List Char) → List Char
  | [] => []
  | [w] => w
  | w :: rest => w ++ ' ' :: joinSp rest

/-- Does the previous character (head of the reversed accumulator) end a
sentence, for the lookbehind in `re.split(r'(?<=[.!?])\s+', text)`? -/
def isPunctOpt : Option Char → Bool
  | none => false
  | some c => c = '.' || c = '!' || c = '?'

/-- `re.split(r'(?<=[.!?])\s+', text)`: split at each maximal whitespace run
whose preceding character is `.`, `!` or `?`.  The state is `some acc` while a
sentence (reversed in `acc`) is being built and `none` while the whitespace
separator run is being consumed. -/
def splitAux : Option (List Char) → List Char → List (List Char)
  | some acc, [] => [acc.reverse]
  | none, [] => [[]]
  | some acc, c :: rest =>
    if pyWS c ∧ isPunctOpt acc.head? then
      acc.reverse :: splitAux none rest
    else
      splitAux (some (c :: acc)) rest
  | none, c :: rest =>
    if pyWS c then splitAux none rest else splitAux (some [c]) rest

def splitSent (l : List Char) : List (List Char) :=
  splitAux (some []) l

/-! ### `VectorService.chunk_text` -/

/-- One chunk record produced by `chunk_text`
(`{"text": ..., "word_count": ..., "char_count": ...}`). -/
structure PyChunk where
  text : String
  word_count : Nat
  char_count : Nat
  deriving DecidableEq, Repr

/-- Loop state of `chunk_text`: the accumulated `chunks` list, the current
chunk under construction (`current_chunk`) and its word count
(`current_size`). -/
structure ChunkSt where
  chunks : List PyChunk
  current : List Char
  size : Nat
  deriving DecidableEq, Repr

/-- The body of `for sentence in sentences:` in `chunk_text`
(vector_service.py lines 112-139), for one sentence. -/
def chunkStep (chunk_size overlap : Nat) (st : ChunkSt) (sent : List Char) : ChunkSt :=
  let s := pyStrip sent
  if s = [] then st
  else
    let sSize := (words s).length
    if chunk_size < st.size + sSize ∧ st.current ≠ [] then
      let emitted : PyChunk := ⟨⟨pyStrip st.current⟩, st.size, st.current.length⟩
      if 0 < overlap ∧ overlap < st.size then
        let ovText := joinSp ((words st.current).drop ((words st.current).length - overlap))
        ⟨st.chunks ++ [emitted], ovText ++ ' ' :: s, (words ovText).length + sSize⟩
      else
        ⟨st.chunks ++ [emitted], s, sSize⟩
    else
      ⟨st.chunks, st.current ++ (if st.current = [] then [] else [' ']) ++ s, st.size + sSize⟩

/-- `VectorService.chunk_text(text, chunk_size, overlap)`
(vector_service.py lines 94-150). -/
def chunkText (text : String) (chunk_size overlap : Nat) : List PyChunk :=
  if text.data = [] ∨ pyStrip text.data = [] then []
  else
    let t := squeeze (pyStrip (replaceNT text.data))
    let st := (splitSent t).foldl (chunkStep chunk_size overlap) ⟨[], [], 0⟩
    if pyStrip st.current ≠ [] then
      st.chunks ++ [⟨⟨pyStrip st.current⟩, st.size, st.current.length⟩]
    else st.chunks

/-- Number of leading overlap words chunk `c` received from the chunk before
it: `chunk_text` copies the trailing `overlap` words of the previous chunk
exactly when `overlap > 0 and current_size > overlap` held at emission time,
and the emitted chunk's `word_count` equals that `current_size`. -/
def ovUsed (overlap : Nat) : Option PyChunk → Nat
  | none => 0
  | some c => if 0 < overlap ∧ overlap < c.word_count then overlap else 0

/-- Concatenate the chunks' words in output order, first removing from each
chunk the leading overlap words it copied from its predecessor. -/
def reconstruct (overlap : Nat) : Option PyChunk → List PyChunk → List (List Char)
  | _, [] => []
  | prev, c :: rest =>
    (words c.text.data).drop (ovUsed overlap prev) ++ reconstruct overlap (some c) rest

/-- The last chunk of `l`, or `prev` when `l` is empty. -/
def lastOr (prev : Option PyChunk) (l : List PyChunk) : Option PyChunk :=
  match l.getLast? with
  | some c => some c
  | none => prev

/-- The words represented by a `chunk_text` loop state: the emitted chunks'
words (overlaps removed) followed by the pending words of `current_chunk`
(its own pending overlap removed). -/
def chunkRec (overlap : Nat) (st : ChunkSt) : List (List Char) :=
  reconstruct overlap none st.chunks ++
    (words st.current).drop (ovUsed overlap st.chunks.getLast?)

/-! ### ChromaDB model -/

/-- A typed ChromaDB metadata value.  Chroma stores metadata in typed columns,
so an equality filter only matches a value of the same type: filtering on the
integer `5` never matches the stored string `"5"`. -/
inductive MVal where
  | str (s : String)
  | int (z : Int)
  | rat (q : ℚ)
  | bool (b : Bool)
  | null
  deriving DecidableEq, Repr

/-- A Python dict used as chunk metadata, with later duplicate keys
overriding earlier ones (dict-literal `{..., **metadata}` semantics). -/
abbrev Metadata := List (String × MVal)

/-- Dict lookup: the last binding of a key wins. -/
def mlookup (md : Metadata) (k : String) : Option MVal :=
  (md.reverse.find? fun p => p.1 == k).map (·.2)

/-- `metadata.get(k, d)`. -/
def mget (md : Metadata) (k : String) (d : MVal) : MVal :=
  (mlookup md k).getD d

/-- One stored chunk of a ChromaDB collection: id, document text, embedding
vector and metadata.  `addedBy` is a provenance ghost: it records the
`client_id` argument of the `add_*_to_vector_store` call that wrote the item
and has no effect on any behaviour; it is used only to state tenant
isolation. -/
structure Item where
  id : String
  document : String
  embedding : List ℚ
  metadata : Metadata
  addedBy : Nat
  deriving DecidableEq

/-- The ChromaDB client: a total map from collection name to stored items
(absent collections are empty; `get_or_create_collection` is therefore a
read no-op in the model). -/
def Store := String → List Item

def emptyStore : Store := fun _ => []

def updateStore (st : Store) (name : String) (items : List Item) : Store :=
  fun n => if n = name then items else st n

/-- `f"client_{client_id}_legal_docs"` (vector_service.py line 34). -/
def collName (client_id : Nat) : String :=
  "client_" ++ Nat.repr client_id ++ "_legal_docs"

/-- The external embedding provider (`openai.embeddings.create`): either the
whole batched call raises (with an exception message), or it returns one
vector per input text, in order, given by a per-text embedding function. -/
def EmbedProvider := Except String (String → List ℚ)

/-- Cleaning of one input text inside `generate_embeddings`
(vector_service.py lines 66-72): strip, truncate to 8000 characters, replace
empty input by `"Empty content"`. -/
def pyClean (t : String) : String :=
  if pyStrip t.data ≠ [] then ⟨(pyStrip t.data).take 8000⟩ else "Empty content"

/-- `VectorService.generate_embeddings(texts)` (vector_service.py lines
58-92).  A raised provider exception is caught and turned into one
1536-dimensional zero vector per input text. -/
def generateEmbeddings (p : EmbedProvider) (texts : List String) : List (List ℚ) :=
  if texts = [] then []
  else
    match p with
    | .error _ => texts.map fun _ => List.replicate 1536 (0 : ℚ)
    | .ok f =>
      let clean_texts := texts.map pyClean
      if clean_texts = [] then [] else clean_texts.map f

/-- Stable insertion into a list sorted ascending by `key` (ties keep the
existing elements first). -/
def insertAscBy (key : α → ℚ) (x : α) : List α → List α
  | [] => [x]
  | y :: ys => if key x < key y then x :: y :: ys else y :: insertAscBy key x ys

/-- Stable sort, ascending by `key`. -/
def sortAscBy (key : α → ℚ) : List α → List α
  | [] => []
  | x :: xs => insertAscBy key x (sortAscBy key xs)

/-- Stable insertion into a list sorted descending by `key`. -/
def insertDescBy (key : α → ℚ) (x : α) : List α → List α
  | [] => [x]
  | y :: ys => if key y ≤ key x then x :: y :: ys else y :: insertDescBy key x ys

/-- Stable sort, descending by `key`: the model of Python's stable
`list.sort(key=..., reverse=True)`. -/
def sortDescBy (key : α → ℚ) : List α → List α
  | [] => []
  | x :: xs => insertDescBy key x (sortDescBy key xs)

/-- A Chroma `where` filter: a conjunction of typed equality constraints. -/
def matchWhere (md : Metadata) (w : List (String × MVal)) : Bool :=
  w.all fun kv => mlookup md kv.1 == some kv.2

/-- `collection.query(...)`: among the items that pass the `where` filter,
the `n` nearest to the query embedding under the collection's distance
function `distFn` (the HNSW index metric, external to the repo), paired with
their distances.  Result order is ascending by distance. -/
def queryCollection (distFn : List ℚ → List ℚ → ℚ) (items : List Item)
    (qe : List ℚ) (n : Nat) (w : List (String × MVal)) : List (Item × ℚ) :=
  (sortAscBy (·.2) ((items.filter (matchWhere ·.metadata w)).map
    fun it => (it, distFn qe it.embedding))).take n

/-- Banker's rounding (round half to even) of an exact rational to an
integer: the model of Python `round` on exact values. -/
def bankersRound (x : ℚ) : ℤ :=
  if x - ⌊x⌋ < 1/2 then ⌊x⌋
  else if 1/2 < x - ⌊x⌋ then ⌊x⌋ + 1
  else if Even ⌊x⌋ then ⌊x⌋ else ⌊x⌋ + 1

/-- Python `round(x, 3)` on exact rationals. -/
def pyRound3 (x : ℚ) : ℚ := (bankersRound (x * 1000) : ℚ) / 1000

/-- Python `round(x, 2)` on exact rationals. -/
def pyRound2 (x : ℚ) : ℚ := (bankersRound (x * 100) : ℚ) / 100

/-- One formatted result of `search_similar_content`
(vector_service.py lines 314-320). -/
structure SearchResult where
  id : String
  content : String
  metadata : Metadata
  similarity_score : ℚ
  distance : ℚ
  deriving DecidableEq

/-- The `where` clause built by `search_similar_content`
(vector_service.py lines 292-294): the integer `client_id`, plus the source
filter when given. -/
def searchWhere (client_id : Nat) (source_filter : Option String) :
    List (String × MVal) :=
  ("client_id", MVal.int client_id) ::
    (match source_filter with
     | some f => [("source_type", MVal.str f)]
     | none => [])

/-- `VectorService.search_similar_content(client_id, query, n_results,
source_filter)` (vector_service.py lines 276-331). -/
def searchSimilarContent (distFn : List ℚ → List ℚ → ℚ) (store : Store)
    (client_id : Nat) (query : String) (n_results : Nat)
    (source_filter : Option String) (embedP : EmbedProvider) : List SearchResult :=
  let items := store (collName client_id)
  let query_embedding := generateEmbeddings embedP [query]
  if query_embedding = [] then []
  else
    let raw := queryCollection distFn items (query_embedding.headD [])
      (min n_results 20) (searchWhere client_id source_filter)
    let formatted := raw.filterMap fun p =>
      if (1 : ℚ) - p.2 > 1/10 then
        some ⟨p.1.id, p.1.document, p.1.metadata, pyRound3 (1 - p.2), pyRound3 p.2⟩
      else none
    (sortDescBy (·.similarity_score) formatted).take n_results

/-- The base metadata dict built for the `i`-th chunk of a document
(vector_service.py lines 185-194); the caller-supplied `metadata` is spread
last and therefore overrides on key collision. -/
def docChunkMeta (client_id document_id i : Nat) (c : PyChunk)
    (metadata : Metadata) : Metadata :=
  ([("client_id", MVal.str (Nat.repr client_id)),
    ("document_id", MVal.int document_id),
    ("chunk_index", MVal.int i),
    ("word_count", MVal.int c.word_count),
    ("char_count", MVal.int c.char_count),
    ("source_type", MVal.str "document"),
    ("content_type", MVal.str "legal_document")] : Metadata) ++ metadata

/-- `VectorService.add_document_to_vector_store` (vector_service.py lines
152-210).  `uuidHex` supplies the `uuid.uuid4().hex[:8]` fragment of each
chunk id. -/
def addDocumentToVectorStore (store : Store) (client_id document_id : Nat)
    (text : String) (metadata : Metadata) (embedP : EmbedProvider)
    (uuidHex : Nat → String) : Store × List String :=
  let chunks := chunkText text 800 100
  if chunks = [] then (store, [])
  else
    let chunk_texts := chunks.map (·.text)
    let embeddings := generateEmbeddings embedP chunk_texts
    if embeddings = [] ∨ embeddings.length ≠ chunk_texts.length then (store, [])
    else
      let newItems := (chunks.zip embeddings).enum.map fun p =>
        { id := "doc_" ++ Nat.repr document_id ++ "_chunk_" ++ Nat.repr p.1
            ++ "_" ++ uuidHex p.1
          document := p.2.1.text
          embedding := p.2.2
          metadata := docChunkMeta client_id document_id p.1 p.2.1 metadata
          addedBy := client_id : Item }
      (updateStore store (collName client_id)
        (store (collName client_id) ++ newItems), newItems.map (·.id))

/-- The base metadata dict built for the `i`-th chunk of an email
(vector_service.py lines 249-258). -/
def emailChunkMeta (client_id email_id i : Nat) (c : PyChunk)
    (metadata : Metadata) : Metadata :=
  ([("client_id", MVal.str (Nat.repr client_id)),
    ("email_id", MVal.int email_id),
    ("chunk_index", MVal.int i),
    ("word_count", MVal.int c.word_count),
    ("char_count", MVal.int c.char_count),
    ("source_type", MVal.str "email"),
    ("content_type", MVal.str "legal_email")] : Metadata) ++ metadata

/-- `VectorService.add_email_to_vector_store` (vector_service.py lines
212-274): emails over 600 words are chunked with size 600 / overlap 50,
shorter ones become a single chunk. -/
def addEmailToVectorStore (store : Store) (client_id email_id : Nat)
    (email_content : String) (metadata : Metadata) (embedP : EmbedProvider)
    (uuidHex : Nat → String) : Store × List String :=
  let chunks :=
    if 600 < (words email_content.data).length then
      chunkText email_content 600 50
    else
      [⟨email_content, (words email_content.data).length, email_content.length⟩]
  if chunks = [] then (store, [])
  else
    let chunk_texts := chunks.map (·.text)
    let embeddings := generateEmbeddings embedP chunk_texts
    if embeddings = [] ∨ embeddings.length ≠ chunk_texts.length then (store, [])
    else
      let newItems := (chunks.zip embeddings).enum.map fun p =>
        { id := "email_" ++ Nat.repr email_id ++ "_chunk_" ++ Nat.repr p.1
            ++ "_" ++ uuidHex p.1
          document := p.2.1.text
          embedding := p.2.2
          metadata := emailChunkMeta client_id email_id p.1 p.2.1 metadata
          addedBy := client_id : Item }
      (updateStore store (collName client_id)
        (store (collName client_id) ++ newItems), newItems.map (·.id))

/-- The statistics dict of `get_client_content_stats`. -/
structure ClientStats where
  total_chunks : Nat
  documents : Nat
  emails : Nat
  document_chunks : Nat
  email_chunks : Nat
  total_words : Int
  total_chars : Int
  deriving DecidableEq, Repr

/-- `metadata.get(k, 0)` summed as an integer (stored counts are ints). -/
def metaInt (md : Metadata) (k : String) : Int :=
  match mlookup md k with
  | some (.int z) => z
  | _ => 0

/-- `VectorService.get_client_content_stats(client_id)` (vector_service.py
lines 333-396): fetches the client's items through the
`where={"client_id": client_id}` filter and aggregates their metadata. -/
def getClientContentStats (store : Store) (client_id : Nat) : ClientStats :=
  let mds := ((store (collName client_id)).filter
    (matchWhere ·.metadata [("client_id", MVal.int client_id)])).map (·.metadata)
  if mds = [] then ⟨0, 0, 0, 0, 0, 0, 0⟩
  else
    { total_chunks := mds.length
      documents := ((mds.filter fun md => mget md "source_type" .null == .str "document").map
        fun md => mlookup md "document_id").dedup.length
      emails := ((mds.filter fun md => mget md "source_type" .null == .str "email").map
        fun md => mlookup md "email_id").dedup.length
      document_chunks := (mds.filter fun md =>
        mget md "source_type" .null == .str "document").length
      email_chunks := (mds.filter fun md =>
        mget md "source_type" .null == .str "email").length
      total_words := (mds.map (metaInt · "word_count")).sum
      total_chars := (mds.map (metaInt · "char_count")).sum }

/-- The `where` clause of `delete_document_chunks`
(vector_service.py lines 404-410). -/
def deleteDocWhere (client_id document_id : Nat) : List (String × MVal) :=
  [("client_id", MVal.int client_id),
   ("document_id", MVal.int document_id),
   ("source_type", MVal.str "document")]

/-- `VectorService.delete_document_chunks(client_id, document_id)`
(vector_service.py lines 398-422): fetch matching ids, delete them, report
whether anything was found. -/
def deleteDocumentChunks (store : Store) (client_id document_id : Nat) :
    Store × Bool :=
  let items := store (collName client_id)
  let matchedIds := (items.filter
    (matchWhere ·.metadata (deleteDocWhere client_id document_id))).map (·.id)
  if matchedIds ≠ [] then
    (updateStore store (collName client_id)
      (items.filter fun it => !matchedIds.contains it.id), true)
  else (store, false)

/-- The `where` clause of `delete_email_chunks`
(vector_service.py lines 430-436). -/
def deleteEmailWhere (client_id email_id : Nat) : List (String × MVal) :=
  [("client_id", MVal.int client_id),
   ("email_id", MVal.int email_id),
   ("source_type", MVal.str "email")]

/-- `VectorService.delete_email_chunks(client_id, email_id)`
(vector_service.py lines 424-448). -/
def deleteEmailChunks (store : Store) (client_id email_id : Nat) :
    Store × Bool :=
  let items := store (collName client_id)
  let matchedIds := (items.filter
    (matchWhere ·.metadata (deleteEmailWhere client_id email_id))).map (·.id)
  if matchedIds ≠ [] then
    (updateStore store (collName client_id)
      (items.filter fun it => !matchedIds.contains it.id), true)
  else (store, false)

/-- `VectorService.reset_client_data(client_id)` (vector_service.py lines
450-469): drops the client's whole collection. -/
def resetClientData (store : Store) (client_id : Nat) : Store :=
  updateStore store (collName client_id) []

/-- The write/delete operations a tenant's data can go through; a trace of
these from the empty store describes every reachable vector-store state. -/
inductive VOp where
  | addDoc (client_id document_id : Nat) (text : String) (metadata : Metadata)
      (embedP : EmbedProvider) (uuidHex : Nat → String)
  | addEmail (client_id email_id : Nat) (content : String) (metadata : Metadata)
      (embedP : EmbedProvider) (uuidHex : Nat → String)
  | delDoc (client_id document_id : Nat)
  | delEmail (client_id email_id : Nat)
  | reset (client_id : Nat)

def applyVOp (store : Store) : VOp → Store
  | .addDoc c d t m e u => (addDocumentToVectorStore store c d t m e u).1
  | .addEmail c i t m e u => (addEmailToVectorStore store c i t m e u).1
  | .delDoc c d => (deleteDocumentChunks store c d).1
  | .delEmail c i => (deleteEmailChunks store c i).1
  | .reset c => resetClientData store c

def runVOps (ops : List VOp) : Store :=
  ops.foldl applyVOp emptyStore

/-! ### `AIService.generate_response` and the chat history window -/

/-- One chat message sent to the completion provider. -/
structure Msg where
  role : String
  content : String
  deriving DecidableEq, Repr

/-- One entry of the conversation history passed by `api/chat.py`: a stored
question/answer pair. -/
structure QAEntry where
  question : String
  answer : String
  deriving DecidableEq, Repr

/-- The fixed system persona of `AIService` (ai_service.py lines 14-30). -/
def systemPrompt : String :=
  "You are a helpful AI assistant for lawyers working with legal documents and email communications. \n\nYour role is to:\n1. Analyze legal documents and email threads accurately\n2. Provide clear, professional responses about legal matters\n3. Extract key information from contracts, agreements, and correspondence\n4. Help lawyers understand complex legal relationships and requirements\n\nGuidelines:\n- Be precise and factual in your responses\n- Reference specific documents or emails when providing information\n- Use professional legal language when appropriate\n- If you're unsure about something, clearly state that\n- Focus on the most relevant information for the lawyer's query\n- When discussing legal matters, remind users to verify important details\n\nYou have access to the client's documents and email communications. Use this context to provide accurate, helpful responses."

/-- Render a metadata value inside an f-string. -/
def showMVal : MVal → String
  | .str s => s
  | .int z => Int.repr z
  | .rat q => toString q
  | .bool b => if b then "True" else "False"
  | .null => "None"

/-- Two-decimal rendering of an exact rational, the model of Python
`f"{x:.2f}"`. -/
def fmt2 (q : ℚ) : String :=
  let z := bankersRound (q * 100)
  (if z < 0 then "-" else "") ++ Nat.repr (z.natAbs / 100) ++ "." ++
    (if z.natAbs % 100 < 10 then "0" else "") ++ Nat.repr (z.natAbs % 100)

/-- The per-result source label of `_build_context_from_results`
(ai_service.py lines 122-128). -/
def sourceLabel (md : Metadata) : String :=
  let st := mget md "source_type" (.str "unknown")
  if st == .str "document" then
    "Document: " ++ showMVal (mget md "filename" (.str "Unknown"))
  else if st == .str "email" then
    "Email: " ++ showMVal (mget md "subject" (.str "Unknown Subject")) ++
      " from " ++ showMVal (mget md "sender" (.str "Unknown"))
  else
    "Source: " ++ showMVal st

/-- `AIService._build_context_from_results` (ai_service.py lines 109-134). -/
def buildContextFromResults (results : List SearchResult) : String :=
  if results = [] then "No relevant context found."
  else
    String.intercalate "\n" <| results.enum.map fun p =>
      "[" ++ Nat.repr (p.1 + 1) ++ "] " ++ sourceLabel p.2.metadata ++
        " (Relevance: " ++ fmt2 p.2.similarity_score ++ ")\n" ++ p.2.content ++ "\n"

/-- One formatted source of `_format_sources` (ai_service.py lines 136-167):
the common fields plus the per-source-kind extras. -/
structure SourceInfo where
  type : String
  similarity_score : ℚ
  content_preview : String
  fields : Metadata
  deriving DecidableEq

/-- `content[:200] + "..." if len(content) > 200 else content`. -/
def contentPreview (s : String) : String :=
  if 200 < s.data.length then ⟨s.data.take 200⟩ ++ "..." else s

/-- `AIService._format_sources(results)` (ai_service.py lines 136-167). -/
def formatSources (results : List SearchResult) : List SourceInfo :=
  results.map fun r =>
    let st := showMVal (mget r.metadata "source_type" (.str "unknown"))
    { type := st
      similarity_score := r.similarity_score
      content_preview := contentPreview r.content
      fields :=
        if st = "document" then
          [("filename", mget r.metadata "filename" (.str "Unknown")),
           ("document_id", mget r.metadata "document_id" .null),
           ("chunk_index", mget r.metadata "chunk_index" (.int 0))]
        else if st = "email" then
          [("subject", mget r.metadata "subject" (.str "Unknown Subject")),
           ("sender", mget r.metadata "sender" (.str "Unknown")),
           ("date", mget r.metadata "date" (.str "Unknown")),
           ("email_id", mget r.metadata "email_id" .null),
           ("chunk_index", mget r.metadata "chunk_index" (.int 0))]
        else [] }

/-- Python `lst[-n:]`: the last `n` entries (the whole list when shorter). -/
def pyLastN (n : Nat) (l : List α) : List α :=
  l.drop (l.length - n)

/-- The final user message of `generate_response`
(ai_service.py lines 60-65). -/
def userQuestionMsg (context_text question : String) : Msg :=
  ⟨"user",
    "Context from documents and emails:\n" ++ context_text ++
      "\n\nQuestion: " ++ question ++
      "\n\nPlease provide a helpful response based on the available context."⟩

/-- The message list `generate_response` sends to the completion provider
(ai_service.py lines 50-67): system prompt, then two messages per entry of
`conversation_history[-6:]`, then the current context-plus-question. -/
def promptMessages (conversation_history : List QAEntry)
    (context_text question : String) : List Msg :=
  (⟨"system", systemPrompt⟩ :: (if conversation_history ≠ [] then
      (pyLastN 6 conversation_history).flatMap fun e =>
        [⟨"user", e.question⟩, ⟨"assistant", e.answer⟩]
    else [])) ++ [userQuestionMsg context_text question]

/-- The dict returned by `generate_response`; `error` is `none` on the
success path (ai_service.py lines 88-95 and 99-107). -/
structure AnswerResult where
  success : Bool
  answer : String
  sources : List SourceInfo
  context_used : Nat
  tokens_used : Nat
  response_time : ℚ
  error : Option String
  deriving DecidableEq

/-- The external completion provider (`openai.chat.completions.create`):
either raises with an exception message or returns the answer text and the
total token count. -/
def CompleteProvider := List Msg → Except String (String × Nat)

/-- `AIService.generate_response(client_id, question, conversation_history)`
(ai_service.py lines 32-107).  `elapsed` stands for the wall-clock
`time.time() - start_time`.  Retrieval cannot raise (search_similar_content
catches internally and the embedding fallback returns zero vectors), so the
only exception source inside the `try` block is the completion call. -/
def generateResponse (distFn : List ℚ → List ℚ → ℚ) (store : Store)
    (client_id : Nat) (question : String)
    (conversation_history : List QAEntry) (embedP : EmbedProvider)
    (completeP : CompleteProvider) (elapsed : ℚ) : AnswerResult :=
  let context_results := searchSimilarContent distFn store client_id question 5 none embedP
  let context_text := buildContextFromResults context_results
  let messages := promptMessages conversation_history context_text question
  match completeP messages with
  | .error e =>
    { success := false
      answer := "I apologize, but I encountered an error while processing your question. Please try again."
      sources := []
      context_used := 0
      tokens_used := 0
      response_time := elapsed
      error := some e }
  | .ok (answer, tokens_used) =>
    { success := true
      answer := answer
      sources := formatSources context_results
      context_used := context_results.length
      tokens_used := tokens_used
      response_time := pyRound2 elapsed
      error := none }

/-! ### `GmailService._save_new_messages` -/

/-- One message returned by the mailbox provider (real or simulated). -/
structure GmailMsg where
  id : String
  thread_id : String
  subject : String
  sender : String
  recipient : String
  body : String
  snippet : String
  date : String
  label_ids : List String
  deriving DecidableEq, Repr

/-- One row of the relational `emails` table (the fields
`_save_new_messages` writes; ISO date parsing and JSON encoding of labels
are elided as value-preserving). -/
structure EmailRec where
  client_id : Nat
  gmail_message_id : String
  gmail_thread_id : String
  subject : String
  sender : String
  recipient : String
  body : String
  snippet : String
  date : String
  labels : List String
  is_processed : Bool
  deriving DecidableEq, Repr

/-- `GmailService._save_new_messages(messages, client_id)`
(gmail_service.py lines 585-632): for each message, query the table for an
existing row with the same `(gmail_message_id, client_id)` and insert only
when none exists.  Each insert is committed before the next message is
examined. -/
def saveNewMessages (db : List EmailRec) (messages : List GmailMsg)
    (client_id : Nat) : List EmailRec :=
  messages.foldl
    (fun db msg =>
      if db.any fun e => e.gmail_message_id = msg.id ∧ e.client_id = client_id then
        db
      else
        db ++ [{ client_id := client_id
                 gmail_message_id := msg.id
                 gmail_thread_id := msg.thread_id
                 subject := msg.subject
                 sender := msg.sender
                 recipient := msg.recipient
                 body := msg.body
                 snippet := msg.snippet
                 date := msg.date
                 labels := msg.label_ids
                 is_processed := false : EmailRec }])
    db

/-- Number of stored copies of external message `mid` for tenant
`client_id`. -/
def countEmailRec (db : List EmailRec) (client_id : Nat) (mid : String) : Nat :=
  (db.filter fun e => e.gmail_message_id = mid ∧ e.client_id = client_id).length

/-- Does an optional metadata value hold a string?  The stored `client_id`
of every written chunk does, while the read/delete filters compare an
integer — a decidable condition used to state that mismatch in general. -/
def isStrVal : Option MVal → Bool
  | some (.str _) => true
  | _ => false

/-- Value of a decimal digit character. -/
def digVal (c : Char) : Nat := c.toNat - 48

/-- Decimal value of a digit string, used to show that `Nat.repr` (and hence
the collection name `client_{id}_legal_docs`) is injective. -/
def decVal (l : List Char) : Nat := l.foldl (fun a c => a * 10 + digVal c) 0

end Lexsy

namespace Lexsy

/-! ## Helper lemmas about Python word splitting -/

theorem wordsCore_cons (c : Char) (l : List Char) :
    wordsCore (c :: l) = wordsStep c (wordsCore l) := rfl

theorem words_nil : words [] = [] := rfl

theorem consNE_append (w : List Char) (ws vs : List (List Char)) :
    consNE w (ws ++ vs) = consNE w ws ++ vs := by
  by_cases h : w = [] <;> simp [consNE, h]

theorem foldr_wordsStep_acc (l : List Char) (acc : List (List Char)) :
    l.foldr wordsStep ([], acc) = ((wordsCore l).1, (wordsCore l).2 ++ acc) := by
  induction l with
  | nil => simp [wordsCore]
  | cons c l ih =>
    show wordsStep c (l.foldr wordsStep ([], acc)) = _
    rw [ih, wordsCore_cons]
    by_cases h : pyWS c
    · simp [wordsStep, h, consNE_append]
    · simp [wordsStep, h]

theorem words_ws_cons {c : Char} (h : pyWS c) (l : List Char) :
    words (c :: l) = words l := by
  simp [words, wordsCore_cons, wordsStep, h, consNE]

theorem words_append_ws {c : Char} (h : pyWS c) (a b : List Char) :
    words (a ++ c :: b) = words a ++ words b := by
  have hcb : wordsCore (c :: b) = ([], words b) := by
    simp [wordsCore_cons, wordsStep, h, words]
  have : wordsCore (a ++ c :: b) = ((wordsCore a).1, (wordsCore a).2 ++ words b) := by
    show (a ++ c :: b).foldr wordsStep ([], []) = _
    rw [List.foldr_append]
    show a.foldr wordsStep (wordsCore (c :: b)) = _
    rw [hcb]
    exact foldr_wordsStep_acc a (words b)
  simp only [words, this, consNE_append]

theorem words_all_ws {t : List Char} (h : ∀ c ∈ t, pyWS c) : words t = [] := by
  induction t with
  | nil => rfl
  | cons c l ih =>
    rw [words_ws_cons (h c (by simp))]
    exact ih fun x hx => h x (by simp [hx])

theorem words_append_all_ws {t : List Char} (h : ∀ c ∈ t, pyWS c)
    (a : List Char) : words (a ++ t) = words a := by
  cases t with
  | nil => simp
  | cons c l =>
    rw [words_append_ws (h c (List.mem_cons_self c l)),
      words_all_ws fun x hx => h x (List.mem_cons_of_mem c hx), List.append_nil]

theorem words_dropWhile (l : List Char) : words (l.dropWhile pyWS) = words l := by
  induction l with
  | nil => rfl
  | cons c l ih =>
    by_cases h : pyWS c
    · rw [List.dropWhile_cons_of_pos h, ih, words_ws_cons h]
    · rw [List.dropWhile_cons_of_neg h]

theorem rdropWhile_append_rtake (p : α → Bool) (l : List α) :
    l.rdropWhile p ++ l.rtakeWhile p = l := by
  unfold List.rdropWhile List.rtakeWhile
  rw [← List.reverse_append, List.takeWhile_append_dropWhile, List.reverse_reverse]

theorem words_rdropWhile (l : List Char) : words (l.rdropWhile pyWS) = words l := by
  conv_rhs => rw [← rdropWhile_append_rtake pyWS l]
  exact (words_append_all_ws
    (fun c hc => List.mem_rtakeWhile_imp hc) _).symm

theorem words_pyStrip (l : List Char) : words (pyStrip l) = words l := by
  unfold pyStrip
  rw [words_rdropWhile, words_dropWhile]

theorem wordsCore_no_ws {w : List Char} (h : ∀ c ∈ w, pyWS c = false) :
    wordsCore w = (w, []) := by
  induction w with
  | nil => rfl
  | cons c l ih =>
    rw [wordsCore_cons, ih fun x hx => h x (by simp [hx])]
    simp [wordsStep, h c (by simp)]

theorem words_of_word {w : List Char} (hne : w ≠ [])
    (h : ∀ c ∈ w, pyWS c = false) : words w = [w] := by
  simp [words, wordsCore_no_ws h, consNE, hne]

theorem words_valid (l : List Char) :
    ∀ w ∈ words l, w ≠ [] ∧ ∀ c ∈ w, pyWS c = false := by
  suffices h : (∀ c ∈ (wordsCore l).1, pyWS c = false) ∧
      ∀ w ∈ (wordsCore l).2, w ≠ [] ∧ ∀ c ∈ w, pyWS c = false by
    intro w hw
    unfold words consNE at hw
    split at hw
    · exact h.2 w hw
    · rcases List.mem_cons.1 hw with rfl | hw
      · exact ⟨by assumption, h.1⟩
      · exact h.2 w hw
  induction l with
  | nil => exact ⟨by simp [wordsCore], by simp [wordsCore]⟩
  | cons c l ih =>
    rw [wordsCore_cons]
    unfold wordsStep
    by_cases hc : pyWS c
    · refine ⟨by simp [hc], ?_⟩
      simp only [hc, if_true]
      intro w hw
      unfold consNE at hw
      split at hw
      · exact ih.2 w hw
      · rcases List.mem_cons.1 hw with rfl | hw
        · exact ⟨by assumption, ih.1⟩
        · exact ih.2 w hw
    · refine ⟨?_, ?_⟩
      · simp only [hc, if_false]
        intro x hx
        rcases List.mem_cons.1 hx with rfl | hx
        · simpa using hc
        · exact ih.1 x hx
      · simp only [hc, if_false]
        exact ih.2

theorem words_joinSp {ws : List (List Char)}
    (h : ∀ w ∈ ws, w ≠ [] ∧ ∀ c ∈ w, pyWS c = false) :
    words (joinSp ws) = ws := by
  induction ws with
  | nil => rfl
  | cons w rest ih =>
    cases rest with
    | nil =>
      show words w = [w]
      exact words_of_word (h w (by simp)).1 (h w (by simp)).2
    | cons v vs =>
      show words (w ++ ' ' :: joinSp (v :: vs)) = _
      rw [words_append_ws (by decide), ih fun x hx => h x (by simp [hx]),
        words_of_word (h w (by simp)).1 (h w (by simp)).2]
      rfl

theorem wordsCore_replaceNT (l : List Char) : wordsCore (replaceNT l) = wordsCore l := by
  induction l with
  | nil => rfl
  | cons c l ih =>
    show wordsCore ((if c = '\n' ∨ c = '\t' then ' ' else c) :: replaceNT l) = _
    rw [wordsCore_cons, wordsCore_cons, ih]
    by_cases h : c = '\n' ∨ c = '\t'
    · have hc : pyWS c := by rcases h with rfl | rfl <;> decide
      have hsp : pyWS ' ' = true := by decide
      simp [h, wordsStep, hc, hsp]
    · simp [h]

theorem words_replaceNT (l : List Char) : words (replaceNT l) = words l := by
  simp [words, wordsCore_replaceNT]

theorem wordsCore_squeeze (l : List Char) : wordsCore (squeeze l) = wordsCore l := by
  induction l with
  | nil => rfl
  | cons c1 l ih =>
    cases l with
    | nil => rfl
    | cons c2 rest =>
      show wordsCore (if c1 = ' ' ∧ c2 = ' ' then squeeze (c2 :: rest)
        else c1 :: squeeze (c2 :: rest)) = _
      by_cases h : c1 = ' ' ∧ c2 = ' '
      · obtain ⟨rfl, rfl⟩ := h
        rw [if_pos ⟨rfl, rfl⟩, ih, wordsCore_cons, wordsCore_cons, wordsCore_cons]
        have hsp : pyWS ' ' = true := by decide
        simp [wordsStep, hsp, consNE]
      · rw [if_neg h, wordsCore_cons, wordsCore_cons, ih]

theorem words_squeeze (l : List Char) : words (squeeze l) = words l := by
  simp [words, wordsCore_squeeze]

/-! ## Sentence splitting preserves the word sequence -/

theorem words_splitAux (l : List Char) :
    (∀ acc, ((splitAux (some acc) l).map words).flatten = words (acc.reverse ++ l)) ∧
    ((splitAux none l).map words).flatten = words l := by
  induction l with
  | nil =>
    constructor
    · intro acc
      show words acc.reverse ++ [] = words (acc.reverse ++ [])
      simp
    · rfl
  | cons c rest ih =>
    constructor
    · intro acc
      show ((if pyWS c ∧ isPunctOpt acc.head? then
          acc.reverse :: splitAux none rest
        else splitAux (some (c :: acc)) rest).map words).flatten = _
      by_cases h : pyWS c ∧ isPunctOpt acc.head?
      · rw [if_pos h]
        show words acc.reverse ++ ((splitAux none rest).map words).flatten = _
        rw [ih.2, words_append_ws h.1]
      · rw [if_neg h, ih.1 (c :: acc), List.reverse_cons, List.append_assoc,
          List.singleton_append]
    · show ((if pyWS c then splitAux none rest
        else splitAux (some [c]) rest).map words).flatten = _
      by_cases h : pyWS c
      · rw [if_pos h, ih.2, words_ws_cons h]
      · rw [if_neg h]
        have := ih.1 [c]
        simpa using this

theorem words_splitSent (l : List Char) :
    ((splitSent l).map words).flatten = words l := by
  have := (words_splitAux l).1 []
  simpa [splitSent] using this

/-! ## The `chunk_text` loop invariant -/

theorem lastOr_none (l : List PyChunk) : lastOr none l = l.getLast? := by
  unfold lastOr
  cases l.getLast? <;> rfl

theorem lastOr_cons (prev : Option PyChunk) (x : PyChunk) (xs : List PyChunk) :
    lastOr prev (x :: xs) = lastOr (some x) xs := by
  unfold lastOr
  cases xs with
  | nil => rfl
  | cons y ys =>
    rw [List.getLast?_cons_cons]
    cases h : (y :: ys).getLast? with
    | some z => rfl
    | none => exact absurd (List.getLast?_eq_none_iff.1 h) (List.cons_ne_nil y ys)

theorem reconstruct_concat (overlap : Nat) (c : PyChunk) :
    ∀ (l : List PyChunk) (prev : Option PyChunk),
    reconstruct overlap prev (l ++ [c]) =
      reconstruct overlap prev l ++
        (words c.text.data).drop (ovUsed overlap (lastOr prev l)) := by
  intro l
  induction l with
  | nil =>
    intro prev
    show (words c.text.data).drop (ovUsed overlap prev) ++ reconstruct overlap (some c) [] = _
    simp [reconstruct, lastOr]
  | cons x xs ih =>
    intro prev
    show (words x.text.data).drop (ovUsed overlap prev) ++
        reconstruct overlap (some x) (xs ++ [c]) = _
    rw [ih (some x), lastOr_cons, ← List.append_assoc]
    rfl

/-- The three data invariants of the `chunk_text` loop state. -/
def ChunkInv (overlap : Nat) (st : ChunkSt) : Prop :=
  (st.current = [] → st.chunks = []) ∧
  st.size = (words st.current).length ∧
  ovUsed overlap st.chunks.getLast? ≤ (words st.current).length

theorem chunkStep_sound (chunk_size overlap : Nat) (st : ChunkSt)
    (sent : List Char) (hinv : ChunkInv overlap st) :
    ChunkInv overlap (chunkStep chunk_size overlap st sent) ∧
    chunkRec overlap (chunkStep chunk_size overlap st sent) =
      chunkRec overlap st ++ words sent := by
  obtain ⟨h1, h2, h3⟩ := hinv
  have hws : words (pyStrip sent) = words sent := words_pyStrip sent
  unfold chunkStep
  by_cases hs : pyStrip sent = []
  · rw [if_pos hs]
    refine ⟨⟨h1, h2, h3⟩, ?_⟩
    rw [← hws, hs]
    show chunkRec overlap st = chunkRec overlap st ++ words []
    rw [show words [] = [] from rfl, List.append_nil]
  · rw [if_neg hs]
    simp only
    set s := pyStrip sent with hsdef
    set ws := words s with hwsdef
    have hsw : words sent = ws := hws.symm
    by_cases hbig : chunk_size < st.size + ws.length ∧ st.current ≠ []
    · rw [if_pos hbig]
      have hcurw : words (pyStrip st.current) = words st.current := words_pyStrip _
      have hemit : ((⟨⟨pyStrip st.current⟩, st.size, st.current.length⟩ :
          PyChunk).text).data = pyStrip st.current := rfl
      by_cases hov : 0 < overlap ∧ overlap < st.size
      · rw [if_pos hov]
        -- overlap branch
        have hovused : ovUsed overlap (some (⟨⟨pyStrip st.current⟩, st.size,
            st.current.length⟩ : PyChunk)) = overlap := by
          simp [ovUsed, hov]
        have hovlen : overlap ≤ (words st.current).length := by
          rw [← h2]; exact Nat.le_of_lt hov.2
        have hvalid : ∀ w ∈ (words st.current).drop
            ((words st.current).length - overlap),
            w ≠ [] ∧ ∀ c ∈ w, pyWS c = false :=
          fun w hw => words_valid st.current w (List.drop_subset _ _ hw)
        have hjoin : words (joinSp ((words st.current).drop
            ((words st.current).length - overlap))) =
            (words st.current).drop ((words st.current).length - overlap) :=
          words_joinSp hvalid
        have hovwlen : ((words st.current).drop
            ((words st.current).length - overlap)).length = overlap := by
          rw [List.length_drop]
          omega
        have hcurw2 : words (joinSp ((words st.current).drop
            ((words st.current).length - overlap)) ++ ' ' :: s) =
            (words st.current).drop ((words st.current).length - overlap) ++ ws := by
          rw [words_append_ws (by decide), hjoin]
        have hdropfull : ∀ (A : List (List Char)), A.length = overlap →
            (A ++ ws).drop overlap = ws := by
          intro A hA
          rw [← hA, List.drop_left]
        constructor
        · refine ⟨?_, ?_, ?_⟩
          · intro hc
            exfalso
            rcases List.append_eq_nil.1 hc with ⟨-, hc2⟩
            exact List.cons_ne_nil _ _ hc2
          · show (words (joinSp _)).length + ws.length = _
            rw [hcurw2, hjoin, List.length_append, hovwlen]
          · show ovUsed overlap (st.chunks ++ [_]).getLast? ≤ _
            rw [List.getLast?_concat, hcurw2, List.length_append, hovwlen, hovused]
            exact Nat.le_add_right _ _
        · unfold chunkRec
          simp only [List.getLast?_concat]
          rw [reconstruct_concat, lastOr_none, hemit, hcurw, hcurw2, hovused, hsw,
            hdropfull _ hovwlen, List.append_assoc]
      · rw [if_neg hov]
        -- no-overlap emission branch
        have hovused : ovUsed overlap (some (⟨⟨pyStrip st.current⟩, st.size,
            st.current.length⟩ : PyChunk)) = 0 := by
          simp [ovUsed, hov]
        constructor
        · refine ⟨fun hc => absurd hc hs, rfl, ?_⟩
          · show ovUsed overlap (st.chunks ++ [_]).getLast? ≤ _
            rw [List.getLast?_concat, hovused]
            exact Nat.zero_le _
        · unfold chunkRec
          simp only [List.getLast?_concat]
          rw [reconstruct_concat, lastOr_none, hemit, hcurw, hovused, hsw]
          simp [List.append_assoc]
    · rw [if_neg hbig]
      by_cases hcur : st.current = []
      · have hchunks := h1 hcur
        have hsize : st.size = 0 := by
          rw [h2, hcur]
          rfl
        constructor
        · refine ⟨fun hc => absurd ?_ hs, ?_, ?_⟩
          · rcases List.append_eq_nil.1 hc with ⟨-, hc2⟩
            exact hc2
          · show st.size + ws.length = _
            rw [hsize, hcur]
            simp
          · show ovUsed overlap st.chunks.getLast? ≤ _
            rw [hchunks]
            show (0 : Nat) ≤ _
            exact Nat.zero_le _
        · unfold chunkRec
          rw [hchunks, hcur, hsw]
          show reconstruct overlap none [] ++ (words ([] ++ [] ++ s)).drop _ = _
          simp [reconstruct, ovUsed, words_nil]
      · have hcur' : (st.current ++ (if st.current = [] then [] else [' ']) ++ s) =
            st.current ++ ' ' :: s := by
          rw [if_neg hcur, List.append_assoc]
          rfl
        have hw : words (st.current ++ ' ' :: s) = words st.current ++ ws :=
          words_append_ws (by decide) _ _
        constructor
        · refine ⟨fun hc => absurd ?_ hcur, ?_, ?_⟩
          · rcases List.append_eq_nil.1 hc with ⟨hc1, -⟩
            rcases List.append_eq_nil.1 hc1 with ⟨hc2, -⟩
            exact hc2
          · show st.size + ws.length = _
            rw [hcur', hw, List.length_append, h2]
          · show ovUsed overlap st.chunks.getLast? ≤ _
            rw [hcur', hw, List.length_append]
            exact Nat.le_trans h3 (Nat.le_add_right _ _)
        · unfold chunkRec
          rw [hcur', hw, hsw, List.drop_append_of_le_length h3, List.append_assoc]

theorem chunkRec_init (overlap : Nat) : chunkRec overlap ⟨[], [], 0⟩ = [] := rfl

theorem chunkInv_init (overlap : Nat) : ChunkInv overlap ⟨[], [], 0⟩ :=
  ⟨fun _ => rfl, rfl, Nat.le_refl 0⟩

theorem chunkFold_sound (chunk_size overlap : Nat) :
    ∀ (sents : List (List Char)) (st : ChunkSt), ChunkInv overlap st →
    ChunkInv overlap (sents.foldl (chunkStep chunk_size overlap) st) ∧
    chunkRec overlap (sents.foldl (chunkStep chunk_size overlap) st) =
      chunkRec overlap st ++ (sents.map words).flatten := by
  intro sents
  induction sents with
  | nil =>
    intro st hinv
    exact ⟨hinv, by simp⟩
  | cons s rest ih =>
    intro st hinv
    obtain ⟨hinv1, heq1⟩ := chunkStep_sound chunk_size overlap st s hinv
    obtain ⟨hinv2, heq2⟩ := ih _ hinv1
    refine ⟨hinv2, ?_⟩
    rw [List.foldl_cons] at *
    rw [heq2, heq1, List.append_assoc]
    rfl

/-- Reconstruction result for the whole of `chunk_text`, before packaging it
as the claim's theorem. -/
theorem chunkText_reconstruction (text : String) (chunk_size overlap : Nat) :
    reconstruct overlap none (chunkText text chunk_size overlap) = words text.data := by
  unfold chunkText
  by_cases h0 : text.data = [] ∨ pyStrip text.data = []
  · rw [if_pos h0]
    have hempty : words text.data = [] := by
      rcases h0 with h | h
      · rw [h, words_nil]
      · rw [← words_pyStrip, h, words_nil]
    rw [hempty]
    rfl
  · rw [if_neg h0]
    simp only
    set t := squeeze (pyStrip (replaceNT text.data)) with ht
    have hwt : ((splitSent t).map words).flatten = words text.data := by
      rw [words_splitSent, ht, words_squeeze, words_pyStrip, words_replaceNT]
    obtain ⟨hinv, heq⟩ := chunkFold_sound chunk_size overlap (splitSent t)
      ⟨[], [], 0⟩ (chunkInv_init overlap)
    set st := (splitSent t).foldl (chunkStep chunk_size overlap) ⟨[], [], 0⟩ with hst
    have hrec : chunkRec overlap st = words text.data := by
      rw [heq, chunkRec_init, List.nil_append, hwt]
    by_cases hfin : pyStrip st.current ≠ []
    · rw [if_pos hfin]
      rw [reconstruct_concat, lastOr_none]
      show reconstruct overlap none st.chunks ++
        (words (pyStrip st.current)).drop (ovUsed overlap st.chunks.getLast?) = _
      rw [words_pyStrip]
      exact hrec
    · rw [if_neg hfin]
      push_neg at hfin
      have hcw : words st.current = [] := by
        rw [← words_pyStrip, hfin, words_nil]
      rw [← hrec]
      unfold chunkRec
      rw [hcw, List.drop_nil, List.append_nil]

/-! ## Injectivity of `Nat.repr`, hence of the per-tenant collection name -/

theorem foldl_dec (l : List Char) (a : Nat) :
    l.foldl (fun a c => a * 10 + digVal c) a =
      a * 10 ^ l.length + l.foldl (fun a c => a * 10 + digVal c) 0 := by
  induction l generalizing a with
  | nil => simp
  | cons c l ih =>
    show l.foldl _ (a * 10 + digVal c) = _ + l.foldl _ (0 * 10 + digVal c)
    rw [ih (a * 10 + digVal c), ih (0 * 10 + digVal c)]
    show _ = a * 10 ^ (l.length + 1) + _
    ring

theorem decVal_cons (c : Char) (l : List Char) :
    decVal (c :: l) = digVal c * 10 ^ l.length + decVal l := by
  unfold decVal
  show l.foldl _ (0 * 10 + digVal c) = _
  rw [show (0 * 10 + digVal c) = digVal c from by omega]
  exact foldl_dec l (digVal c)

theorem digVal_digitChar {r : Nat} (h : r < 10) : digVal (Nat.digitChar r) = r := by
  interval_cases r <;> rfl

theorem decVal_toDigitsCore :
    ∀ (fuel n : Nat) (acc : List Char), n < fuel →
    decVal (Nat.toDigitsCore 10 fuel n acc) = n * 10 ^ acc.length + decVal acc := by
  intro fuel
  induction fuel with
  | zero => omega
  | succ f ih =>
    intro n acc hn
    show decVal (if n / 10 = 0 then Nat.digitChar (n % 10) :: acc
      else Nat.toDigitsCore 10 f (n / 10) (Nat.digitChar (n % 10) :: acc)) = _
    have hmod : n % 10 < 10 := Nat.mod_lt _ (by omega)
    by_cases hdiv : n / 10 = 0
    · rw [if_pos hdiv, decVal_cons, digVal_digitChar hmod]
      have : n % 10 = n := by omega
      rw [this]
    · rw [if_neg hdiv]
      have hlt : n / 10 < f := by
        have h1 : n / 10 < n := Nat.div_lt_self (by omega) (by omega)
        omega
      rw [ih (n / 10) (Nat.digitChar (n % 10) :: acc) hlt, decVal_cons,
        digVal_digitChar hmod]
      have hdm : 10 * (n / 10) + n % 10 = n := Nat.div_add_mod n 10
      calc n / 10 * 10 ^ (Nat.digitChar (n % 10) :: acc).length +
            (n % 10 * 10 ^ acc.length + decVal acc)
          = (10 * (n / 10) + n % 10) * 10 ^ acc.length + decVal acc := by
            show n / 10 * 10 ^ (acc.length + 1) + _ = _
            ring
        _ = n * 10 ^ acc.length + decVal acc := by rw [hdm]

theorem decVal_repr (n : Nat) : decVal (Nat.repr n).data = n := by
  show decVal (Nat.toDigitsCore 10 (n + 1) n []) = n
  rw [decVal_toDigitsCore (n + 1) n [] (Nat.lt_succ_self n)]
  show n * 10 ^ 0 + 0 = n
  norm_num

theorem natRepr_inj {a b : Nat} (h : Nat.repr a = Nat.repr b) : a = b := by
  have h2 := congrArg (fun s => decVal s.data) h
  simpa [decVal_repr] using h2

theorem string_append_data (s t : String) : (s ++ t).data = s.data ++ t.data := rfl

theorem collName_inj {a b : Nat} (h : collName a = collName b) : a = b := by
  unfold collName at h
  have hd := congrArg String.data h
  rw [string_append_data, string_append_data, string_append_data,
    string_append_data] at hd
  have h1 := List.append_cancel_right hd
  have h2 := List.append_cancel_left h1
  have h3 : decVal (Nat.repr a).data = decVal (Nat.repr b).data := by rw [h2]
  rw [decVal_repr, decVal_repr] at h3
  exact h3

/-! ## Search results come from the tenant's own collection -/

theorem mem_insertAscBy {key : α → ℚ} {x y : α} {l : List α} :
    y ∈ insertAscBy key x l → y = x ∨ y ∈ l := by
  induction l with
  | nil => intro h; simp [insertAscBy] at h; exact Or.inl h
  | cons z zs ih =>
    intro h
    unfold insertAscBy at h
    split at h
    · rcases List.mem_cons.1 h with rfl | h2
      · exact Or.inl rfl
      · exact Or.inr h2
    · rcases List.mem_cons.1 h with rfl | h2
      · exact Or.inr (List.mem_cons_self _ _)
      · rcases ih h2 with h3 | h3
        · exact Or.inl h3
        · exact Or.inr (List.mem_cons_of_mem _ h3)

theorem mem_sortAscBy {key : α → ℚ} {y : α} {l : List α} :
    y ∈ sortAscBy key l → y ∈ l := by
  induction l with
  | nil => intro h; simp [sortAscBy] at h
  | cons z zs ih =>
    intro h
    rcases mem_insertAscBy h with rfl | h2
    · exact List.mem_cons_self _ _
    · exact List.mem_cons_of_mem _ (ih h2)

theorem mem_insertDescBy {key : α → ℚ} {x y : α} {l : List α} :
    y ∈ insertDescBy key x l → y = x ∨ y ∈ l := by
  induction l with
  | nil => intro h; simp [insertDescBy] at h; exact Or.inl h
  | cons z zs ih =>
    intro h
    unfold insertDescBy at h
    split at h
    · rcases List.mem_cons.1 h with rfl | h2
      · exact Or.inl rfl
      · exact Or.inr h2
    · rcases List.mem_cons.1 h with rfl | h2
      · exact Or.inr (List.mem_cons_self _ _)
      · rcases ih h2 with h3 | h3
        · exact Or.inl h3
        · exact Or.inr (List.mem_cons_of_mem _ h3)

theorem mem_sortDescBy {key : α → ℚ} {y : α} {l : List α} :
    y ∈ sortDescBy key l → y ∈ l := by
  induction l with
  | nil => intro h; simp [sortDescBy] at h
  | cons z zs ih =>
    intro h
    rcases mem_insertDescBy h with rfl | h2
    · exact List.mem_cons_self _ _
    · exact List.mem_cons_of_mem _ (ih h2)

/-- Every search result is a formatting of an item of the tenant's own
collection that passed the `where` filter, with score `round(1 - d, 3)` for
its distance `d` and unrounded score strictly above the 0.1 threshold. -/
theorem searchSimilarContent_mem (distFn : List ℚ → List ℚ → ℚ) (store : Store)
    (cid : Nat) (q : String) (n : Nat) (filt : Option String)
    (embedP : EmbedProvider) :
    ∀ r ∈ searchSimilarContent distFn store cid q n filt embedP,
    ∃ it, it ∈ store (collName cid) ∧
      matchWhere it.metadata (searchWhere cid filt) = true ∧
      r.id = it.id ∧ r.content = it.document ∧ r.metadata = it.metadata ∧
      ∃ d, d = distFn ((generateEmbeddings embedP [q]).headD []) it.embedding ∧
        r.similarity_score = pyRound3 (1 - d) ∧ r.distance = pyRound3 d ∧
        (1 : ℚ) - d > 1/10 := by
  intro r hr
  simp only [searchSimilarContent] at hr
  split at hr
  · exact absurd hr (List.not_mem_nil r)
  · have hr2 := mem_sortDescBy (List.take_subset _ _ hr)
    rw [List.mem_filterMap] at hr2
    obtain ⟨p, hp, hpr⟩ := hr2
    unfold queryCollection at hp
    split at hpr
    · have hp2 := mem_sortAscBy (List.take_subset _ _ hp)
      rw [List.mem_map] at hp2
      obtain ⟨it, hit, rfl⟩ := hp2
      rw [List.mem_filter] at hit
      obtain rfl := Option.some.inj hpr
      exact ⟨it, hit.1, hit.2, rfl, rfl, rfl, distFn _ it.embedding, rfl, rfl, rfl,
        by assumption⟩
    · exact Option.noConfusion hpr

/-- `add_document_to_vector_store` either leaves the store unchanged (no
chunks / failed embedding-count check) or appends, to the writing tenant's
own collection, items all tagged with that tenant. -/
theorem addDocumentToVectorStore_cases (store : Store) (c d : Nat) (x : String)
    (m : Metadata) (e : EmbedProvider) (u : Nat → String) :
    (addDocumentToVectorStore store c d x m e u).1 = store ∨
    ∃ items : List Item, (∀ y ∈ items, y.addedBy = c) ∧
      (addDocumentToVectorStore store c d x m e u).1 =
        updateStore store (collName c) (store (collName c) ++ items) := by
  simp only [addDocumentToVectorStore]
  split
  · exact Or.inl rfl
  · split
    · exact Or.inl rfl
    · refine Or.inr ⟨_, ?_, rfl⟩
      intro y hy
      rw [List.mem_map] at hy
      obtain ⟨p, hp, rfl⟩ := hy
      rfl

theorem addEmailToVectorStore_cases (store : Store) (c i : Nat) (x : String)
    (m : Metadata) (e : EmbedProvider) (u : Nat → String) :
    (addEmailToVectorStore store c i x m e u).1 = store ∨
    ∃ items : List Item, (∀ y ∈ items, y.addedBy = c) ∧
      (addEmailToVectorStore store c i x m e u).1 =
        updateStore store (collName c) (store (collName c) ++ items) := by
  simp only [addEmailToVectorStore]
  split
  all_goals
    split
    · exact Or.inl rfl
    · split
      · exact Or.inl rfl
      · refine Or.inr ⟨_, ?_, rfl⟩
        intro y hy
        rw [List.mem_map] at hy
        obtain ⟨p, hp, rfl⟩ := hy
        rfl

theorem deleteDocumentChunks_subset (store : Store) (c d : Nat) (nm : String) :
    ∀ it ∈ (deleteDocumentChunks store c d).1 nm, it ∈ store nm := by
  intro it hit
  simp only [deleteDocumentChunks] at hit
  split at hit
  · unfold updateStore at hit
    dsimp only at hit
    split at hit
    · have hnm : nm = collName c := by assumption
      rw [List.mem_filter] at hit
      rw [hnm]
      exact hit.1
    · exact hit
  · exact hit

theorem deleteEmailChunks_subset (store : Store) (c i : Nat) (nm : String) :
    ∀ it ∈ (deleteEmailChunks store c i).1 nm, it ∈ store nm := by
  intro it hit
  simp only [deleteEmailChunks] at hit
  split at hit
  · unfold updateStore at hit
    dsimp only at hit
    split at hit
    · have hnm : nm = collName c := by assumption
      rw [List.mem_filter] at hit
      rw [hnm]
      exact hit.1
    · exact hit
  · exact hit

theorem resetClientData_subset (store : Store) (c : Nat) (nm : String) :
    ∀ it ∈ (resetClientData store c) nm, it ∈ store nm := by
  intro it hit
  unfold resetClientData updateStore at hit
  split at hit
  · exact absurd hit (List.not_mem_nil it)
  · exact hit

/-- Every item a reachable store holds in tenant `t`'s collection was written
by an `add_*_to_vector_store` call for `t` itself: writes address the
collection whose name embeds their own tenant id, and the name is injective
in the id. -/
theorem runVOps_addedBy (ops : List VOp) :
    ∀ (t : Nat) (it : Item), it ∈ (runVOps ops) (collName t) → it.addedBy = t := by
  suffices h : ∀ (store : Store),
      (∀ t it, it ∈ store (collName t) → it.addedBy = t) →
      ∀ t it, it ∈ (ops.foldl applyVOp store) (collName t) → it.addedBy = t by
    exact h emptyStore (fun t it hit => absurd hit (List.not_mem_nil it))
  induction ops with
  | nil => exact fun store h => h
  | cons op rest ih =>
    intro store hstore
    apply ih
    intro t it hit
    have key : ∀ (c : Nat) (items : List Item),
        (∀ x ∈ items, x.addedBy = c) →
        it ∈ (updateStore store (collName c)
          (store (collName c) ++ items)) (collName t) → it.addedBy = t := by
      intro c items hnew hmem
      unfold updateStore at hmem
      split at hmem
      · have hcc : collName t = collName c := by assumption
        rcases List.mem_append.1 hmem with hold | hnew2
        · rw [collName_inj hcc]
          exact hstore c it hold
        · rw [collName_inj hcc]
          exact hnew it hnew2
      · exact hstore t it hmem
    cases op with
    | addDoc c d x m e u =>
      change it ∈ (addDocumentToVectorStore store c d x m e u).1 (collName t) at hit
      rcases addDocumentToVectorStore_cases store c d x m e u with hsame | ⟨items, hnew, heq⟩
      · rw [hsame] at hit
        exact hstore t it hit
      · rw [heq] at hit
        exact key c items hnew hit
    | addEmail c i x m e u =>
      change it ∈ (addEmailToVectorStore store c i x m e u).1 (collName t) at hit
      rcases addEmailToVectorStore_cases store c i x m e u with hsame | ⟨items, hnew, heq⟩
      · rw [hsame] at hit
        exact hstore t it hit
      · rw [heq] at hit
        exact key c items hnew hit
    | delDoc c d =>
      exact hstore t it (deleteDocumentChunks_subset store c d _ it hit)
    | delEmail c i =>
      exact hstore t it (deleteEmailChunks_subset store c i _ it hit)
    | reset c =>
      exact hstore t it (resetClientData_subset store c _ it hit)

/-! ## Sortedness of the stable descending sort -/

theorem pairwise_insertDescBy (key : α → ℚ) (x : α) (l : List α)
    (h : l.Pairwise fun a b => key b ≤ key a) :
    (insertDescBy key x l).Pairwise fun a b => key b ≤ key a := by
  induction l with
  | nil => simp [insertDescBy]
  | cons y ys ih =>
    rcases List.pairwise_cons.1 h with ⟨hy, hys⟩
    unfold insertDescBy
    by_cases hc : key y ≤ key x
    · rw [if_pos hc]
      refine List.pairwise_cons.2 ⟨?_, h⟩
      intro b hb
      rcases List.mem_cons.1 hb with rfl | hb
      · exact hc
      · exact le_trans (hy b hb) hc
    · rw [if_neg hc]
      refine List.pairwise_cons.2 ⟨?_, ih hys⟩
      intro b hb
      rcases mem_insertDescBy hb with rfl | hb
      · exact le_of_not_le hc
      · exact hy b hb

theorem pairwise_sortDescBy (key : α → ℚ) (l : List α) :
    (sortDescBy key l).Pairwise fun a b => key b ≤ key a := by
  induction l with
  | nil => simp [sortDescBy]
  | cons x xs ih => exact pairwise_insertDescBy key x _ ih

/-! ## Claim theorems -/

/-- **C7** — Chunking preserves text: reassembling the chunks of
`chunk_text` in output order, after removing from each chunk the leading
overlap words it copied from its predecessor, yields exactly the word
sequence of the original text (all non-whitespace characters in their
original order; whitespace is the chunk/overlap boundary material the
claim excepts), and empty or whitespace-only input yields an empty chunk
sequence rather than an error. -/
theorem c7_chunking_preserves_text (text : String) (chunk_size overlap : Nat) :
    reconstruct overlap none (chunkText text chunk_size overlap) = words text.data ∧
    (pyStrip text.data = [] → chunkText text chunk_size overlap = []) := by
  refine ⟨chunkText_reconstruction text chunk_size overlap, ?_⟩
  intro h
  unfold chunkText
  rw [if_pos (Or.inr h)]

/-- Witness for C7 at concrete inputs: a two-sentence text reconstructs to
its own word sequence, and whitespace-only input chunks to `[]`. -/
theorem c7_chunking_preserves_text_witness :
    reconstruct 100 none (chunkText "Alpha beta. Gamma delta." 800 100) =
      words "Alpha beta. Gamma delta.".data ∧
    chunkText " \t " 800 100 = [] :=
  ⟨(c7_chunking_preserves_text "Alpha beta. Gamma delta." 800 100).1,
   (c7_chunking_preserves_text " \t " 800 100).2 (by decide)⟩

/-- **C1** — Tenant isolation: over any trace of write/delete operations
from the empty store, every result a similarity query for tenant `A`
returns comes from an item stored in `A`'s own collection that was written
by an add call for `A` itself — never one written for a different tenant
`B`.  Writes address only the collection named after their tenant id, reads
address only the querying tenant's collection, and the collection name is
injective in the tenant id. -/
theorem c1_tenant_isolation (ops : List VOp) (A B : Nat) (hAB : A ≠ B)
    (distFn : List ℚ → List ℚ → ℚ) (q : String) (k : Nat) (filt : Option String)
    (embedP : EmbedProvider) :
    ∀ r ∈ searchSimilarContent distFn (runVOps ops) A q k filt embedP,
    ∃ it, it ∈ (runVOps ops) (collName A) ∧ it.addedBy = A ∧ it.addedBy ≠ B ∧
      r.id = it.id ∧ r.content = it.document ∧ r.metadata = it.metadata := by
  intro r hr
  obtain ⟨it, hmem, hw, hid, hc, hmd, -⟩ :=
    searchSimilarContent_mem distFn (runVOps ops) A q k filt embedP r hr
  have hA := runVOps_addedBy ops A it hmem
  refine ⟨it, hmem, hA, ?_, hid, hc, hmd⟩
  rw [hA]
  exact hAB

/-- Witness for C1: tenants 1 and 2, a trace writing a document for each,
a query for tenant 1. -/
theorem c1_tenant_isolation_witness :
    (1 : Nat) ≠ 2 ∧
    ∀ r ∈ searchSimilarContent (fun _ _ => 0)
        (runVOps [.addDoc 1 1 "Hello there." [] (.ok fun _ => [1]) (fun _ => "u"),
                  .addDoc 2 1 "Hello there." [] (.ok fun _ => [1]) (fun _ => "u")])
        1 "greeting" 5 none (.ok fun _ => [1]),
    ∃ it, it ∈ (runVOps [.addDoc 1 1 "Hello there." [] (.ok fun _ => [1]) (fun _ => "u"),
                  .addDoc 2 1 "Hello there." [] (.ok fun _ => [1]) (fun _ => "u")]) (collName 1) ∧
      it.addedBy = 1 ∧ it.addedBy ≠ 2 ∧
      r.id = it.id ∧ r.content = it.document ∧ r.metadata = it.metadata :=
  ⟨by decide,
   c1_tenant_isolation
     [.addDoc 1 1 "Hello there." [] (.ok fun _ => [1]) (fun _ => "u"),
      .addDoc 2 1 "Hello there." [] (.ok fun _ => [1]) (fun _ => "u")]
     1 2 (by decide) (fun _ _ => 0) "greeting" 5 none (.ok fun _ => [1])⟩

/-- **C5 counterexample** — The returned `similarity_score` is
`round(1 - distance, 3)`, not exactly `1 - distance`: with a collection
item at true distance `1/2500 = 0.0004`, the returned score is `1`
although `1 - 0.0004 = 0.9996 ≠ 1`. -/
theorem c5_counterexample :
    (searchSimilarContent (fun _ _ => 1/2500)
        (updateStore emptyStore (collName 7)
          [⟨"x", "body", [0], [("client_id", MVal.int 7)], 7⟩])
        7 "q" 5 none (.ok fun _ => [1])).map (fun r => r.similarity_score) = [1] ∧
    (1 : ℚ) - 1/2500 ≠ 1 := by
  constructor
  · simp only [searchSimilarContent, generateEmbeddings, queryCollection, searchWhere,
      updateStore, emptyStore, matchWhere, mlookup, pyClean]
    norm_num
    norm_num [sortAscBy, insertAscBy, sortDescBy, insertDescBy, List.filterMap_cons,
      pyRound3, bankersRound]
    norm_num [Int.fract]
  · norm_num

/-- **C5 (amended)** — Retrieval scoring and truncation: every returned
result comes from an item of the tenant's collection, its
`similarity_score` is `round(1 - d, 3)` for **that item's** true distance
`d = distFn(query_embedding, item.embedding)` (and its `distance` field is
`round(d, 3)`), candidates are kept only when the unrounded `1 - d` is
strictly greater than 0.1, results are in descending order of the returned
(rounded) score, and at most `k` results are returned. -/
theorem c5_search_scoring (distFn : List ℚ → List ℚ → ℚ) (store : Store)
    (cid : Nat) (q : String) (k : Nat) (filt : Option String)
    (embedP : EmbedProvider) :
    (searchSimilarContent distFn store cid q k filt embedP).length ≤ k ∧
    List.Pairwise (fun a b => b.similarity_score ≤ a.similarity_score)
      (searchSimilarContent distFn store cid q k filt embedP) ∧
    ∀ r ∈ searchSimilarContent distFn store cid q k filt embedP,
      ∃ it, it ∈ store (collName cid) ∧
        r.id = it.id ∧ r.content = it.document ∧ r.metadata = it.metadata ∧
        r.similarity_score = pyRound3 (1 -
          distFn ((generateEmbeddings embedP [q]).headD []) it.embedding) ∧
        r.distance = pyRound3
          (distFn ((generateEmbeddings embedP [q]).headD []) it.embedding) ∧
        (1 : ℚ) - distFn ((generateEmbeddings embedP [q]).headD [])
          it.embedding > 1/10 := by
  refine ⟨?_, ?_, ?_⟩
  · simp only [searchSimilarContent]
    split
    · simp
    · exact List.length_take_le _ _
  · simp only [searchSimilarContent]
    split
    · simp
    · exact (pairwise_sortDescBy _ _).sublist (List.take_sublist _ _)
  · intro r hr
    obtain ⟨it, hmem, -, hid, hc, hmd, d, hdEq, hs, hd, ht⟩ :=
      searchSimilarContent_mem distFn store cid q k filt embedP r hr
    subst hdEq
    exact ⟨it, hmem, hid, hc, hmd, hs, hd, ht⟩

/-- Witness for C5 (amended) at a concrete query whose result list is
non-empty (exactly one hit), so no conjunct holds vacuously. -/
theorem c5_search_scoring_witness :
    (searchSimilarContent (fun _ _ => 1/2500)
        (updateStore emptyStore (collName 7)
          [⟨"x", "body", [0], [("client_id", MVal.int 7)], 7⟩])
        7 "q" 5 none (.ok fun _ => [1])).length = 1 ∧
    ((searchSimilarContent (fun _ _ => 1/2500)
        (updateStore emptyStore (collName 7)
          [⟨"x", "body", [0], [("client_id", MVal.int 7)], 7⟩])
        7 "q" 5 none (.ok fun _ => [1])).length ≤ 5 ∧
    List.Pairwise (fun a b => b.similarity_score ≤ a.similarity_score)
      (searchSimilarContent (fun _ _ => 1/2500)
        (updateStore emptyStore (collName 7)
          [⟨"x", "body", [0], [("client_id", MVal.int 7)], 7⟩])
        7 "q" 5 none (.ok fun _ => [1])) ∧
    ∀ r ∈ searchSimilarContent (fun _ _ => 1/2500)
        (updateStore emptyStore (collName 7)
          [⟨"x", "body", [0], [("client_id", MVal.int 7)], 7⟩])
        7 "q" 5 none (.ok fun _ => [1]),
      ∃ it, it ∈ (updateStore emptyStore (collName 7)
          [⟨"x", "body", [0], [("client_id", MVal.int 7)], 7⟩]) (collName 7) ∧
        r.id = it.id ∧ r.content = it.document ∧ r.metadata = it.metadata ∧
        r.similarity_score = pyRound3 (1 -
          (fun _ _ => (1 : ℚ)/2500)
            ((generateEmbeddings (.ok fun _ => [1]) ["q"]).headD [])
            it.embedding) ∧
        r.distance = pyRound3
          ((fun _ _ => (1 : ℚ)/2500)
            ((generateEmbeddings (.ok fun _ => [1]) ["q"]).headD [])
            it.embedding) ∧
        (1 : ℚ) - (fun _ _ => (1 : ℚ)/2500)
            ((generateEmbeddings (.ok fun _ => [1]) ["q"]).headD [])
            it.embedding > 1/10) := by
  constructor
  · have hmap : (searchSimilarContent (fun _ _ => 1/2500)
        (updateStore emptyStore (collName 7)
          [⟨"x", "body", [0], [("client_id", MVal.int 7)], 7⟩])
        7 "q" 5 none (.ok fun _ => [1])).map
        (fun r => r.similarity_score) = [1] := by
      simp only [searchSimilarContent, generateEmbeddings, queryCollection,
        searchWhere, updateStore, emptyStore, matchWhere, mlookup, pyClean]
      norm_num
      norm_num [sortAscBy, insertAscBy, sortDescBy, insertDescBy,
        List.filterMap_cons, pyRound3, bankersRound]
      norm_num [Int.fract]
    have hlen := congrArg List.length hmap
    rw [List.length_map] at hlen
    simpa using hlen
  · exact c5_search_scoring (fun _ _ => 1/2500)
      (updateStore emptyStore (collName 7)
        [⟨"x", "body", [0], [("client_id", MVal.int 7)], 7⟩])
      7 "q" 5 none (.ok fun _ => [1])

/-- A metadata dict whose `client_id` value is string-typed fails every
`where` filter that constrains `client_id` to an integer: Chroma equality
filters are typed. -/
theorem matchWhere_false_of_strClient {md : Metadata}
    (h : isStrVal (mlookup md "client_id") = true) (z : Int)
    {w : List (String × MVal)} (hw : ("client_id", MVal.int z) ∈ w) :
    matchWhere md w = false := by
  unfold matchWhere
  rw [List.all_eq_false]
  refine ⟨("client_id", MVal.int z), hw, ?_⟩
  cases hv : mlookup md "client_id" with
  | none => rw [hv] at h; exact absurd h (by simp [isStrVal])
  | some v =>
    cases v with
    | str s => simp [hv]
    | int z2 => rw [hv] at h; exact absurd h (by simp [isStrVal])
    | rat q2 => rw [hv] at h; exact absurd h (by simp [isStrVal])
    | bool b2 => rw [hv] at h; exact absurd h (by simp [isStrVal])
    | null => rw [hv] at h; exact absurd h (by simp [isStrVal])

/-- On any store whose items in the tenant's collection carry a
string-typed `client_id` (as every chunk written by the add functions
does), `delete_document_chunks` matches nothing, deletes nothing and
returns `False`. -/
theorem deleteDocumentChunks_noop_of_strClient (store : Store) (cid did : Nat)
    (h : ∀ it ∈ store (collName cid),
      isStrVal (mlookup it.metadata "client_id") = true) :
    deleteDocumentChunks store cid did = (store, false) := by
  have hfil : (store (collName cid)).filter
      (matchWhere ·.metadata (deleteDocWhere cid did)) = [] := by
    rw [List.filter_eq_nil_iff]
    intro it hit
    rw [matchWhere_false_of_strClient (h it hit) cid
      (by simp [deleteDocWhere])]
    exact Bool.false_ne_true
  simp only [deleteDocumentChunks]
  rw [hfil]
  simp

/-- **C2** — Reingest is not idempotent in this code.  In general: on any
store whose stored chunks carry the string-typed `client_id` the add
functions write, the delete step of a reprocess matches nothing (its
`where` filter compares the integer id) and returns `False`.  Concretely,
for client 1 / document 1 with text `"Hello world."`: the stored chunk's
`client_id` is the string `"1"`, the delete filter holds the integer `1`,
the delete leaves the collection untouched and reports `False`, and
re-adding the identical text leaves both generations
(`doc_1_chunk_0_u` and `doc_1_chunk_0_v`) instead of exactly one. -/
theorem c2_reprocess_leaves_two_generations :
    (∀ (store : Store) (cid did : Nat),
      (∀ it ∈ store (collName cid),
        isStrVal (mlookup it.metadata "client_id") = true) →
      deleteDocumentChunks store cid did = (store, false)) ∧
    (((addDocumentToVectorStore emptyStore 1 1 "Hello world." []
        (.ok fun _ => [1]) (fun _ => "u")).1 (collName 1)).map
      (fun it => mlookup it.metadata "client_id")) = [some (MVal.str "1")] ∧
    ("client_id", MVal.int 1) ∈ deleteDocWhere 1 1 ∧
    (deleteDocumentChunks
        ((addDocumentToVectorStore emptyStore 1 1 "Hello world." []
          (.ok fun _ => [1]) (fun _ => "u")).1) 1 1).2 = false ∧
    ((deleteDocumentChunks
        ((addDocumentToVectorStore emptyStore 1 1 "Hello world." []
          (.ok fun _ => [1]) (fun _ => "u")).1) 1 1).1 (collName 1)) =
      ((addDocumentToVectorStore emptyStore 1 1 "Hello world." []
        (.ok fun _ => [1]) (fun _ => "u")).1 (collName 1)) ∧
    (((addDocumentToVectorStore
        (deleteDocumentChunks
          ((addDocumentToVectorStore emptyStore 1 1 "Hello world." []
            (.ok fun _ => [1]) (fun _ => "u")).1) 1 1).1
        1 1 "Hello world." [] (.ok fun _ => [1]) (fun _ => "v")).1
      (collName 1)).map (fun it => it.id)) =
      ["doc_1_chunk_0_u", "doc_1_chunk_0_v"] := by
  refine ⟨deleteDocumentChunks_noop_of_strClient, ?_, ?_, ?_, ?_, ?_⟩
  · decide
  · decide
  · decide
  · decide
  · decide

/-- Witness for C2's general conjunct: the hypothesis holds at the
concretely written store, and the delete is provably the identity there. -/
theorem c2_reprocess_leaves_two_generations_witness :
    deleteDocumentChunks
      ((addDocumentToVectorStore emptyStore 1 1 "Hello world." []
        (.ok fun _ => [1]) (fun _ => "u")).1) 1 1 =
    (((addDocumentToVectorStore emptyStore 1 1 "Hello world." []
        (.ok fun _ => [1]) (fun _ => "u")).1), false) :=
  (c2_reprocess_leaves_two_generations).1
    ((addDocumentToVectorStore emptyStore 1 1 "Hello world." []
      (.ok fun _ => [1]) (fun _ => "u")).1) 1 1 (by decide)

/-- On any store whose items in the tenant's collection carry a
string-typed `client_id` (as every chunk written by the add functions
does), `get_client_content_stats` aggregates over an empty match set and
returns the all-zero statistics dict. -/
theorem getClientContentStats_zero_of_strClient (store : Store) (cid : Nat)
    (h : ∀ it ∈ store (collName cid),
      isStrVal (mlookup it.metadata "client_id") = true) :
    getClientContentStats store cid = ⟨0, 0, 0, 0, 0, 0, 0⟩ := by
  have hfil : (store (collName cid)).filter
      (matchWhere ·.metadata [("client_id", MVal.int cid)]) = [] := by
    rw [List.filter_eq_nil_iff]
    intro it hit
    rw [matchWhere_false_of_strClient (h it hit) cid (by simp)]
    exact Bool.false_ne_true
  simp only [getClientContentStats]
  rw [hfil]
  simp

/-- **C8** — Stats are always zero, never the true counts.  In general: on
any store whose stored chunks carry the string-typed `client_id` the add
functions write, `get_client_content_stats` returns the all-zero dict
because its `where` filter compares the integer id.  Concretely, with one
document chunk actually stored for client 1 (metadata `client_id = "1"`,
failing the integer filter), the reported `total_chunks` is 0 while the
true chunk count of the collection is 1. -/
theorem c8_stats_zero_despite_content :
    (∀ (store : Store) (cid : Nat),
      (∀ it ∈ store (collName cid),
        isStrVal (mlookup it.metadata "client_id") = true) →
      getClientContentStats store cid = ⟨0, 0, 0, 0, 0, 0, 0⟩) ∧
    (((addDocumentToVectorStore emptyStore 1 1 "Hello world." []
        (.ok fun _ => [1]) (fun _ => "u")).1 (collName 1)).map
      (fun it => mlookup it.metadata "client_id")) = [some (MVal.str "1")] ∧
    (((addDocumentToVectorStore emptyStore 1 1 "Hello world." []
        (.ok fun _ => [1]) (fun _ => "u")).1 (collName 1)).map
      (fun it => matchWhere it.metadata [("client_id", MVal.int 1)])) =
      [false] ∧
    (getClientContentStats
        ((addDocumentToVectorStore emptyStore 1 1 "Hello world." []
          (.ok fun _ => [1]) (fun _ => "u")).1) 1).total_chunks = 0 ∧
    (((addDocumentToVectorStore emptyStore 1 1 "Hello world." []
        (.ok fun _ => [1]) (fun _ => "u")).1) (collName 1)).length = 1 := by
  refine ⟨getClientContentStats_zero_of_strClient, ?_, ?_, ?_, ?_⟩
  · decide
  · decide
  · decide
  · decide

/-- Witness for C8's general conjunct: the hypothesis holds at the
concretely written store, where the full stats dict is provably
all-zero. -/
theorem c8_stats_zero_despite_content_witness :
    getClientContentStats
      ((addDocumentToVectorStore emptyStore 1 1 "Hello world." []
        (.ok fun _ => [1]) (fun _ => "u")).1) 1 = ⟨0, 0, 0, 0, 0, 0, 0⟩ :=
  (c8_stats_zero_despite_content).1
    ((addDocumentToVectorStore emptyStore 1 1 "Hello world." []
      (.ok fun _ => [1]) (fun _ => "u")).1) 1 (by decide)

/-- **C10 counterexample** — The claim's universal form fails: the
caller-supplied metadata dict is spread last (`**metadata`), so a caller
passing its own `client_id` key overrides the `str(client_id)` the code
put first. -/
theorem c10_counterexample :
    (((addDocumentToVectorStore emptyStore 1 1 "Hello world."
        [("client_id", MVal.int 99)] (.ok fun _ => [1]) (fun _ => "u")).1
      (collName 1)).map (fun it => mlookup it.metadata "client_id")) =
      [some (MVal.int 99)] ∧
    MVal.int 99 ≠ MVal.str (Nat.repr 1) := by
  constructor
  · decide
  · decide

/-- **C10 (amended)** — Provided the caller-supplied metadata does not
itself bind `client_id`, `source_type` or `chunk_index` (no caller in the
repository does), every chunk metadata built for write carries
`client_id = str(client_id)` (a string), `source_type = "document"` or
`"email"`, and `chunk_index = i` for the chunk's 0-based enumeration index
`i`; consequently such a chunk never matches a `where` filter comparing
`client_id` with the integer id — which is exactly the filter
`search_similar_content`, `get_client_content_stats`,
`delete_document_chunks` and `delete_email_chunks` build. -/
theorem c10_metadata_type_mismatch (cid sid i : Nat) (c : PyChunk)
    (md : Metadata) (hmd : ∀ p ∈ md, p.1 ≠ "client_id" ∧ p.1 ≠ "source_type" ∧
      p.1 ≠ "chunk_index") :
    mlookup (docChunkMeta cid sid i c md) "client_id" =
      some (.str (Nat.repr cid)) ∧
    mlookup (docChunkMeta cid sid i c md) "source_type" = some (.str "document") ∧
    mlookup (docChunkMeta cid sid i c md) "chunk_index" = some (.int i) ∧
    mlookup (emailChunkMeta cid sid i c md) "client_id" =
      some (.str (Nat.repr cid)) ∧
    mlookup (emailChunkMeta cid sid i c md) "source_type" = some (.str "email") ∧
    mlookup (emailChunkMeta cid sid i c md) "chunk_index" = some (.int i) ∧
    matchWhere (docChunkMeta cid sid i c md) [("client_id", MVal.int cid)] = false ∧
    matchWhere (emailChunkMeta cid sid i c md) [("client_id", MVal.int cid)] = false ∧
    ("client_id", MVal.int cid) ∈ searchWhere cid none ∧
    ("client_id", MVal.int cid) ∈ deleteDocWhere cid sid ∧
    ("client_id", MVal.int cid) ∈ deleteEmailWhere cid sid := by
  have hcl : mlookup (docChunkMeta cid sid i c md) "client_id" =
      some (.str (Nat.repr cid)) := by
    unfold docChunkMeta mlookup
    rw [List.reverse_append, List.find?_append]
    have hnone : md.reverse.find? (fun p => p.1 == "client_id") = none := by
      rw [List.find?_eq_none]
      intro p hp
      simpa using (hmd p (List.mem_reverse.1 hp)).1
    rw [hnone]
    rfl
  have hst : mlookup (docChunkMeta cid sid i c md) "source_type" =
      some (.str "document") := by
    unfold docChunkMeta mlookup
    rw [List.reverse_append, List.find?_append]
    have hnone : md.reverse.find? (fun p => p.1 == "source_type") = none := by
      rw [List.find?_eq_none]
      intro p hp
      simpa using (hmd p (List.mem_reverse.1 hp)).2.1
    rw [hnone]
    rfl
  have hci : mlookup (docChunkMeta cid sid i c md) "chunk_index" =
      some (.int i) := by
    unfold docChunkMeta mlookup
    rw [List.reverse_append, List.find?_append]
    have hnone : md.reverse.find? (fun p => p.1 == "chunk_index") = none := by
      rw [List.find?_eq_none]
      intro p hp
      simpa using (hmd p (List.mem_reverse.1 hp)).2.2
    rw [hnone]
    rfl
  have hecl : mlookup (emailChunkMeta cid sid i c md) "client_id" =
      some (.str (Nat.repr cid)) := by
    unfold emailChunkMeta mlookup
    rw [List.reverse_append, List.find?_append]
    have hnone : md.reverse.find? (fun p => p.1 == "client_id") = none := by
      rw [List.find?_eq_none]
      intro p hp
      simpa using (hmd p (List.mem_reverse.1 hp)).1
    rw [hnone]
    rfl
  have hest : mlookup (emailChunkMeta cid sid i c md) "source_type" =
      some (.str "email") := by
    unfold emailChunkMeta mlookup
    rw [List.reverse_append, List.find?_append]
    have hnone : md.reverse.find? (fun p => p.1 == "source_type") = none := by
      rw [List.find?_eq_none]
      intro p hp
      simpa using (hmd p (List.mem_reverse.1 hp)).2.1
    rw [hnone]
    rfl
  have heci : mlookup (emailChunkMeta cid sid i c md) "chunk_index" =
      some (.int i) := by
    unfold emailChunkMeta mlookup
    rw [List.reverse_append, List.find?_append]
    have hnone : md.reverse.find? (fun p => p.1 == "chunk_index") = none := by
      rw [List.find?_eq_none]
      intro p hp
      simpa using (hmd p (List.mem_reverse.1 hp)).2.2
    rw [hnone]
    rfl
  refine ⟨hcl, hst, hci, hecl, hest, heci, ?_, ?_, ?_, ?_, ?_⟩
  · simp [matchWhere, hcl]
  · simp [matchWhere, hecl]
  · simp [searchWhere]
  · simp [deleteDocWhere]
  · simp [deleteEmailWhere]

/-- Witness for C10 (amended) at concrete inputs. -/
theorem c10_metadata_type_mismatch_witness :
    mlookup (docChunkMeta 3 4 0 ⟨"t", 1, 1⟩ [("filename", MVal.str "a.pdf")])
        "client_id" = some (.str (Nat.repr 3)) ∧
    matchWhere (docChunkMeta 3 4 0 ⟨"t", 1, 1⟩ [("filename", MVal.str "a.pdf")])
        [("client_id", MVal.int 3)] = false :=
  ⟨(c10_metadata_type_mismatch 3 4 0 ⟨"t", 1, 1⟩ [("filename", MVal.str "a.pdf")]
      (by decide)).1,
   (c10_metadata_type_mismatch 3 4 0 ⟨"t", 1, 1⟩ [("filename", MVal.str "a.pdf")]
      (by decide)).2.2.2.2.2.2.1⟩

/-- **C3 counterexample** — A raised embedding-provider exception does not
make `generate_response` fail: the exception is absorbed inside
`generate_embeddings` (zero-vector fallback) and retrieval proceeds, so
with a working completion provider the call returns `success = True`. -/
theorem c3_counterexample :
    (generateResponse (fun _ _ => 0) emptyStore 1 "q" []
      (.error "embedding provider down") (fun _ => .ok ("fine", 7)) 0).success
      = true := by decide

/-- **C3 (amended)** — Completion failure semantics: whenever the
completion call raises with message `m`, `generate_response` does not raise
and returns the structured failure dict: `success = False`, the fixed
apology answer, `sources = []`, `context_used = 0`, `tokens_used = 0`, and
`error` equal to `str(e)` (the exception's message, which is non-empty
exactly when the message is). -/
theorem c3_completion_failure (distFn : List ℚ → List ℚ → ℚ) (store : Store)
    (cid : Nat) (q : String) (hist : List QAEntry) (embedP : EmbedProvider)
    (completeP : CompleteProvider) (elapsed : ℚ) (m : String)
    (h : ∀ msgs, completeP msgs = .error m) :
    generateResponse distFn store cid q hist embedP completeP elapsed =
      ⟨false,
       "I apologize, but I encountered an error while processing your question. Please try again.",
       [], 0, 0, elapsed, some m⟩ := by
  simp only [generateResponse]
  rw [h]

/-- Witness for C3 (amended) at concrete inputs. -/
theorem c3_completion_failure_witness :
    generateResponse (fun _ _ => 0) emptyStore 1 "q" [] (.ok fun _ => [1])
        (fun _ => .error "completion unavailable") 0 =
      ⟨false,
       "I apologize, but I encountered an error while processing your question. Please try again.",
       [], 0, 0, 0, some "completion unavailable"⟩ :=
  c3_completion_failure (fun _ _ => 0) emptyStore 1 "q" [] (.ok fun _ => [1])
    (fun _ => .error "completion unavailable") 0 "completion unavailable"
    (fun _ => rfl)

/-- **C4** — Embedder fallback: for a non-empty batch, a raised provider
exception yields exactly one 1536-dimensional zero vector per input text in
input order; on success the result has exactly one vector per input text,
the `j`-th being the provider's embedding of the `j`-th cleaned input, where
cleaning strips and truncates to at most 8000 characters. -/
theorem c4_embedder_fallback (texts : List String) (m : String)
    (f : String → List ℚ) (h : texts ≠ []) :
    (generateEmbeddings (.error m) texts).length = texts.length ∧
    (∀ v ∈ generateEmbeddings (.error m) texts, v = List.replicate 1536 (0 : ℚ)) ∧
    (generateEmbeddings (.ok f) texts).length = texts.length ∧
    generateEmbeddings (.ok f) texts = texts.map (fun t => f (pyClean t)) ∧
    (∀ t : String, (pyClean t).data.length ≤ 8000) := by
  have hmapne : texts.map pyClean ≠ [] := by
    intro hc
    exact h (List.map_eq_nil_iff.1 hc)
  have hval : generateEmbeddings (.ok f) texts = (texts.map pyClean).map f := by
    simp only [generateEmbeddings]
    rw [if_neg h, if_neg hmapne]
  refine ⟨?_, ?_, ?_, ?_, ?_⟩
  · unfold generateEmbeddings
    rw [if_neg h]
    exact List.length_map _ _
  · intro v hv
    unfold generateEmbeddings at hv
    rw [if_neg h] at hv
    rw [List.mem_map] at hv
    obtain ⟨-, -, rfl⟩ := hv
    rfl
  · rw [hval, List.length_map, List.length_map]
  · rw [hval, List.map_map]
    rfl
  · intro t
    unfold pyClean
    split
    · show ((pyStrip t.data).take 8000).length ≤ 8000
      rw [List.length_take]
      exact Nat.min_le_left _ _
    · decide

/-- Witness for C4 at a concrete two-text batch. -/
theorem c4_embedder_fallback_witness :
    (generateEmbeddings (.error "rate limited") ["hi", ""]).length = 2 ∧
    (∀ v ∈ generateEmbeddings (.error "rate limited") ["hi", ""],
      v = List.replicate 1536 (0 : ℚ)) ∧
    (generateEmbeddings (.ok fun _ => [2]) ["hi", ""]).length = 2 ∧
    generateEmbeddings (.ok fun _ => [2]) ["hi", ""] =
      (["hi", ""] : List String).map (fun _ => ([2] : List ℚ)) ∧
    (∀ t : String, (pyClean t).data.length ≤ 8000) :=
  c4_embedder_fallback ["hi", ""] "rate limited" (fun _ => [2]) (by decide)

/-- The history window contributes two messages per retained entry. -/
theorem length_flatMap_pair (l : List QAEntry) (f g : QAEntry → Msg) :
    (l.flatMap fun e => [f e, g e]).length = 2 * l.length := by
  induction l with
  | nil => rfl
  | cons e rest ih =>
    rw [List.flatMap_cons, List.length_append, ih]
    show 2 + 2 * rest.length = 2 * (rest.length + 1)
    omega

/-- **C6 counterexample** — With a four-entry history the prompt contains
all four question/answer pairs (10 messages in total, 8 of them history),
not at most the last 3 pairs / 6 messages: the question of the
fourth-most-recent pair appears right after the system message. -/
theorem c6_counterexample :
    (promptMessages [⟨"q1", "a1"⟩, ⟨"q2", "a2"⟩, ⟨"q3", "a3"⟩, ⟨"q4", "a4"⟩]
      "ctx" "q").length = 10 ∧
    (promptMessages [⟨"q1", "a1"⟩, ⟨"q2", "a2"⟩, ⟨"q3", "a3"⟩, ⟨"q4", "a4"⟩]
      "ctx" "q").get? 1 = some ⟨"user", "q1"⟩ ∧
    ¬((10 : Nat) ≤ 2 + 2 * 3) := by
  refine ⟨?_, ?_, by decide⟩
  · decide
  · decide

/-- **C6 (amended)** — Conversation-history window: the prompt is the
system message, then two messages (user question, assistant answer) for
each entry of the last **6** question/answer pairs of the history
(`conversation_history[-6:]` — 12 messages, not 3 pairs / 6 messages), in
chronological order (the window is a suffix of the history, flattened in
order), all placed ahead of the current context-plus-question message. -/
theorem c6_history_window (hist : List QAEntry) (ctx q : String) :
    promptMessages hist ctx q =
      ⟨"system", systemPrompt⟩ ::
        ((pyLastN 6 hist).flatMap fun e =>
          [⟨"user", e.question⟩, ⟨"assistant", e.answer⟩]) ++
        [userQuestionMsg ctx q] ∧
    pyLastN 6 hist <:+ hist ∧
    (pyLastN 6 hist).length = min hist.length 6 ∧
    (promptMessages hist ctx q).length = 2 + 2 * min hist.length 6 := by
  have hlen : (pyLastN 6 hist).length = min hist.length 6 := by
    unfold pyLastN
    rw [List.length_drop]
    omega
  have hshape : promptMessages hist ctx q =
      ⟨"system", systemPrompt⟩ ::
        ((pyLastN 6 hist).flatMap fun e =>
          [⟨"user", e.question⟩, ⟨"assistant", e.answer⟩]) ++
        [userQuestionMsg ctx q] := by
    unfold promptMessages
    by_cases h : hist = []
    · subst h
      rfl
    · rw [if_pos h]
  refine ⟨hshape, List.drop_suffix _ _, hlen, ?_⟩
  rw [hshape]
  rw [List.cons_append, List.length_cons, List.length_append,
    length_flatMap_pair, hlen, List.length_singleton]
  omega

/-- `countEmailRec` is positive exactly when a matching row exists. -/
theorem countEmailRec_pos {db : List EmailRec} {cid : Nat} {mid : String} :
    0 < countEmailRec db cid mid ↔
      ∃ e ∈ db, e.gmail_message_id = mid ∧ e.client_id = cid := by
  unfold countEmailRec
  rw [← List.countP_eq_length_filter, List.countP_pos_iff]
  simp

/-- One full description of `_save_new_messages`' effect on the copy count
of one `(gmail_message_id, client_id)` pair: an already-present message is
never inserted again, an absent one is inserted exactly once even when the
batch repeats it. -/
theorem saveNewMessages_count (cid : Nat) (mid : String) :
    ∀ (msgs : List GmailMsg) (db : List EmailRec),
    countEmailRec (saveNewMessages db msgs cid) cid mid =
      if countEmailRec db cid mid = 0 then
        (if msgs.any fun m => m.id = mid then 1 else 0)
      else countEmailRec db cid mid := by
  intro msgs
  induction msgs with
  | nil =>
    intro db
    show countEmailRec db cid mid = _
    by_cases h : countEmailRec db cid mid = 0
    · simp [h]
    · simp [h]
  | cons m rest ih =>
    intro db
    have hstep : saveNewMessages db (m :: rest) cid =
        saveNewMessages (saveNewMessages db [m] cid) rest cid := rfl
    rw [hstep, ih]
    by_cases hany : (db.any fun e =>
        e.gmail_message_id = m.id ∧ e.client_id = cid) = true
    · have hdb1 : saveNewMessages db [m] cid = db := by
        simp only [saveNewMessages, List.foldl_cons, List.foldl_nil]
        rw [if_pos hany]
      rw [hdb1]
      by_cases hc : countEmailRec db cid mid = 0
      · rw [if_pos hc, if_pos hc]
        by_cases hm : m.id = mid
        · exfalso
          rw [List.any_eq_true] at hany
          obtain ⟨e, he, hprop⟩ := hany
          rw [decide_eq_true_eq] at hprop
          have : 0 < countEmailRec db cid mid :=
            countEmailRec_pos.2 ⟨e, he, hm ▸ hprop.1, hprop.2⟩
          omega
        · have hsame : ((m :: rest).any fun x => x.id = mid) =
              (rest.any fun x => x.id = mid) := by
            rw [List.any_cons]
            simp [hm]
          rw [hsame]
      · rw [if_neg hc, if_neg hc]
    · have hkey : countEmailRec (saveNewMessages db [m] cid) cid mid =
          countEmailRec db cid mid + (if m.id = mid then 1 else 0) := by
        simp only [saveNewMessages, List.foldl_cons, List.foldl_nil]
        rw [if_neg hany]
        unfold countEmailRec
        rw [List.filter_append, List.length_append]
        by_cases hm : m.id = mid
        · simp [hm]
        · simp [hm]
      by_cases hm : m.id = mid
      · have hc0 : countEmailRec db cid mid = 0 := by
          by_contra hne
          have hpos : 0 < countEmailRec db cid mid := Nat.pos_of_ne_zero hne
          obtain ⟨e, he, he1, he2⟩ := countEmailRec_pos.1 hpos
          apply hany
          rw [List.any_eq_true]
          exact ⟨e, he, by rw [decide_eq_true_eq]; exact ⟨hm ▸ he1, he2⟩⟩
        rw [hkey, hc0, if_pos hm]
        simp [List.any_cons, hm]
      · rw [hkey, if_neg hm]
        have hsame : ((m :: rest).any fun x => x.id = mid) =
            (rest.any fun x => x.id = mid) := by
          rw [List.any_cons]
          simp [hm]
        rw [hsame]
        simp

/-- **C9** — Monitor deduplication: if tenant `cid` has no stored copy of
external message `mid` and the poller's save step sees `mid` in two
different cycles (batches `cyc1` then `cyc2`), exactly one copy is stored
afterwards: `_save_new_messages` checks for an existing row by
`(gmail_message_id, client_id)` before every insert. -/
theorem c9_monitor_dedup (db : List EmailRec) (cyc1 cyc2 : List GmailMsg)
    (cid : Nat) (mid : String)
    (h0 : countEmailRec db cid mid = 0)
    (h1 : (cyc1.any fun m => m.id = mid) = true)
    (_h2 : (cyc2.any fun m => m.id = mid) = true) :
    countEmailRec (saveNewMessages (saveNewMessages db cyc1 cid) cyc2 cid)
      cid mid = 1 := by
  rw [saveNewMessages_count, saveNewMessages_count]
  rw [h0]
  simp only [if_pos rfl, h1, if_true]
  simp

/-- Witness for C9: the same message id seen in two cycles is stored
once. -/
theorem c9_monitor_dedup_witness :
    countEmailRec
      (saveNewMessages
        (saveNewMessages []
          [⟨"m1", "t1", "s", "a@x", "b@x", "body", "snip", "2024-01-01", []⟩] 1)
        [⟨"m1", "t1", "s", "a@x", "b@x", "body", "snip", "2024-01-01", []⟩] 1)
      1 "m1" = 1 :=
  c9_monitor_dedup []
    [⟨"m1", "t1", "s", "a@x", "b@x", "body", "snip", "2024-01-01", []⟩]
    [⟨"m1", "t1", "s", "a@x", "b@x", "body", "snip", "2024-01-01", []⟩]
    1 "m1" (by decide) (by decide) (by decide)

end Lexsy
